import Mathlib

/-!
# Verification of the ESP32MidiPlayer streaming MIDI parser and scheduler

This file gives a shallow embedding of `src/ESP32MidiPlayer.cpp` /
`src/ESP32MidiPlayer.h` and proves properties of the embedded code.

Modelling conventions:
* Machine integers are `Nat` with explicit `% 2^w` at the points where the
  C++ code can overflow (`uint8_t` bytes are normalised with `% 256` on read,
  the `uint32_t` VLQ accumulator with `% 2^32`, the `uint64_t` tick counters
  and micros arithmetic with `% 2^64`).
* The file (`File _midiFile`) is a `List Nat` of byte values together with an
  open/closed flag.  `seek(offset)` fails exactly when `offset` is past the
  end of the file; a `read` near the end returns the available bytes, which
  may be fewer than requested, exactly as in `_readBytes`.
* Callback invocations are modelled as a trace (`List MidiOut`): an element of
  the trace is one invocation of the corresponding registered callback.
* The C++ helpers take per-track offsets by reference into
  `_tracks[i].currentOffset`; the model threads the same mutations through the
  player value with `setOffset`.
* `micros()` is an input parameter `now` of the functions that read the clock.
* The unbounded `while (true)` loop of `tick()` and the `for` loop of `play()`
  are modelled with an explicit fuel argument; the C++ loops run at most
  "fuel" iterations for a suitable fuel, and every theorem below quantifies
  over or instantiates the fuel.
* Logging has no observable effect on playback state and is not modelled.
-/

namespace MidiPlayer

/-- 2^32, the modulus of `uint32_t`. -/
def U32M : Nat := 4294967296

/-- 2^64, the modulus of `uint64_t`. -/
def U64M : Nat := 18446744073709551616

/-- `UINT64_MAX`, the initial `earliestTick` in `_findTrackWithNextEvent`. -/
def U64MAX : Nat := 18446744073709551615

/-- Playback states, mirroring the header's `enum class PlaybackState`
(`STOPPED`, `PLAYING`, `PAUSED` — the enum has no other constructors). -/
inductive PlaybackState where
  | STOPPED
  | PLAYING
  | PAUSED
deriving DecidableEq

/-- Per-track parse state, mirroring `struct TrackInfo`. -/
structure TrackInfo where
  startOffset : Nat := 0
  currentOffset : Nat := 0
  nextEventTick : Nat := 0
  lastStatusByte : Nat := 0
  endOfTrackReached : Bool := false
deriving DecidableEq

/-- One callback invocation delivered to the consumer. -/
inductive MidiOut where
  | noteOn (channel note velocity : Nat)
  | noteOff (channel note velocity : Nat)
  | controlChange (channel controller value : Nat)
  | programChange (channel program : Nat)
  | pitchBend (channel : Nat) (value : Int)
  | tempoChange (usPerQN : Nat)
  | timeSignature (numerator denomPow2 clocksPerMetronome n32PerQuarter : Nat)
  | endOfTrack (trackIndex : Nat)
  | playbackComplete
deriving DecidableEq

/-- The member state of `class ESP32MidiPlayer` that playback can observe. -/
structure Player where
  fileBytes : List Nat := []
  fileOpen : Bool := false
  state : PlaybackState := .STOPPED
  format : Nat := 0
  trackCount : Nat := 0
  division : Nat := 96
  usPerQN : Nat := 500000
  currentTick : Nat := 0
  playbackStartMicros : Nat := 0
  lastEventMicros : Nat := 0
  pauseStartMicros : Nat := 0
  tracks : List TrackInfo := []
  finishedTracks : Nat := 0
deriving DecidableEq

/-- `stop()`: closes the file and runs `_resetPlaybackState()`, which resets
every playback field and clears `_tracks`.  Only the file contents survive
(they live on the storage device, not in the player). -/
def stop (p : Player) : Player :=
  { fileBytes := p.fileBytes
    fileOpen := false
    state := .STOPPED
    format := 0
    trackCount := 0
    division := 96
    usPerQN := 500000
    currentTick := 0
    playbackStartMicros := 0
    lastEventMicros := 0
    pauseStartMicros := 0
    tracks := []
    finishedTracks := 0 }

/-- `_tracks[i]` as a total function (reads of an out-of-range index only occur
on code paths the C++ never takes with a well-formed call). -/
def getTrack (p : Player) (i : Nat) : TrackInfo := p.tracks.getD i {}

/-- Write track `i` back into the vector. -/
def setTrack (p : Player) (i : Nat) (t : TrackInfo) : Player :=
  { p with tracks := p.tracks.set i t }

/-- Mutate `_tracks[i].currentOffset` (the C++ helpers receive this field by
reference as `uint32_t& offset`). -/
def setOffset (p : Player) (i : Nat) (off : Nat) : Player :=
  setTrack p i { getTrack p i with currentOffset := off }

/-- `_readBytes(offset, buffer, length)`: seek then read.  A seek past the end
of the file fails and calls `stop()`; a read crossing the end of the file
returns only the available bytes.  Returned bytes are `uint8_t` values. -/
def readBytesF (p : Player) (off len : Nat) : List Nat × Player :=
  if p.fileOpen = false then ([], p)
  else if p.fileBytes.length < off then ([], stop p)
  else (((p.fileBytes.drop off).take len).map (· % 256), p)

/-- `_readUint8` applied to `_tracks[i].currentOffset`: reads one byte and
advances the offset; on failure logs, calls `stop()` and returns 0. -/
def readU8 (p : Player) (i : Nat) : Nat × Player :=
  match readBytesF p ((getTrack p i).currentOffset) 1 with
  | ([b], p1) => (b, setOffset p1 i ((getTrack p i).currentOffset + 1))
  | (_, p1) => (0, stop p1)

/-- One pass of the `do … while` loop of `_readVariableLengthQuantity`.
`count` is `bytesReadCount` before this iteration.  The loop aborts with
`stop()` once more than 4 bytes have been read, so 5 iterations always
suffice; `fuel` (always called with 5) only realises that bound. -/
def readVLQAux (p : Player) (i : Nat) : Nat → Nat → Nat → Nat × Player
  | _, _, 0 => (0, p)
  | value, count, fuel + 1 =>
    match readBytesF p ((getTrack p i).currentOffset) 1 with
    | ([b], p1) =>
      if count + 1 > 4 then
        ((value * 128 + b % 128) % U32M,
          stop (setOffset p1 i ((getTrack p i).currentOffset + 1)))
      else if 128 ≤ b then
        readVLQAux (setOffset p1 i ((getTrack p i).currentOffset + 1)) i
          ((value * 128 + b % 128) % U32M) (count + 1) fuel
      else
        ((value * 128 + b % 128) % U32M,
          setOffset p1 i ((getTrack p i).currentOffset + 1))
    | (_, p1) => (0, stop p1)

/-- `_readVariableLengthQuantity` applied to `_tracks[i].currentOffset`. -/
def readVLQ (p : Player) (i : Nat) : Nat × Player :=
  readVLQAux p i 0 0 5

/-- The callback made by the second `switch` of `_handleMidiEvent` for the
two-data-byte commands (0x80/0x90/0xA0/0xB0/0xE0). -/
def emitTwoByte (command channel data1 data2 : Nat) : List MidiOut :=
  if command = 128 then [.noteOff channel data1 data2]
  else if command = 144 then
    if data2 = 0 then [.noteOff channel data1 0]
    else [.noteOn channel data1 data2]
  else if command = 176 then [.controlChange channel data1 data2]
  else if command = 224 then
    [.pitchBend channel (((data2 % 128) * 128 + data1 % 128 : Int) - 8192)]
  else []

/-- The callback made by the second `switch` of `_handleMidiEvent` for the
one-data-byte commands (0xC0/0xD0; 0xD0 has no callback in the source). -/
def emitOneByte (command channel data1 : Nat) : List MidiOut :=
  if command = 192 then [.programChange channel data1]
  else []

/-- `_handleMidiEvent(trackIndex, statusByte, trackOffset, runningStatusUsed,
data1_val)`: reads the remaining data bytes and invokes the callback. -/
def handleMidiEvent (p : Player) (i status : Nat) (running : Bool) (d1v : Nat) :
    Player × List MidiOut :=
  let command := status - status % 16
  let channel := status % 16
  if command = 128 ∨ command = 144 ∨ command = 160 ∨ command = 176 ∨ command = 224 then
    if running then
      let (data2, p2) := readU8 p i
      if p2.fileOpen = false then (p2, [])
      else (p2, emitTwoByte command channel d1v data2)
    else
      let (data1, p1) := readU8 p i
      if p1.fileOpen = false then (p1, [])
      else
        let (data2, p2) := readU8 p1 i
        if p2.fileOpen = false then (p2, [])
        else (p2, emitTwoByte command channel data1 data2)
  else if command = 192 ∨ command = 208 then
    if running then (p, emitOneByte command channel d1v)
    else
      let (data1, p1) := readU8 p i
      if p1.fileOpen = false then (p1, [])
      else (p1, emitOneByte command channel data1)
  else (p, [])

/-- The body of the `META_END_OF_TRACK` (0x2F) case of `_handleMetaEvent`:
mark the track finished (once) and deliver the end-of-track callback. -/
def metaEndOfTrackCore (p : Player) (i : Nat) : Player × List MidiOut :=
  if (getTrack p i).endOfTrackReached = false then
    ({ setTrack p i { getTrack p i with endOfTrackReached := true } with
        finishedTracks := (p.finishedTracks + 1) % 256 }, [MidiOut.endOfTrack i])
  else (p, [])

/-- The `META_END_OF_TRACK` (0x2F) case of `_handleMetaEvent`; a non-zero
declared length is skipped afterwards for offset correctness. -/
def metaEndOfTrack (p : Player) (i length : Nat) : Player × List MidiOut :=
  if 0 < length then
    (setOffset (metaEndOfTrackCore p i).1 i
      ((getTrack (metaEndOfTrackCore p i).1 i).currentOffset + length),
     (metaEndOfTrackCore p i).2)
  else metaEndOfTrackCore p i

/-- The `META_TEMPO` (0x51) case of `_handleMetaEvent`.  `dataOff` is the
offset of the first payload byte; the C++ tests that `_readBytes` returned
exactly 3 bytes. -/
def metaTempo (p : Player) (i length dataOff : Nat) : Player × List MidiOut :=
  if length = 3 then
    match readBytesF p dataOff 3 with
    | (bs, p1) =>
      if bs.length = 3 then
        if bs.getD 0 0 * 65536 + bs.getD 1 0 * 256 + bs.getD 2 0 = 0 then
          (setOffset p1 i (dataOff + 3), [])
        else
          ({ setOffset p1 i (dataOff + 3) with
              usPerQN := bs.getD 0 0 * 65536 + bs.getD 1 0 * 256 + bs.getD 2 0 },
           [MidiOut.tempoChange (bs.getD 0 0 * 65536 + bs.getD 1 0 * 256 + bs.getD 2 0)])
      else (setOffset p1 i (dataOff + length), [])
  else (setOffset p i (dataOff + length), [])

/-- The `META_TIME_SIGNATURE` (0x58) case of `_handleMetaEvent`; a zero
numerator is replaced by 4/4. -/
def metaTimeSignature (p : Player) (i length dataOff : Nat) : Player × List MidiOut :=
  if length = 4 then
    match readBytesF p dataOff 4 with
    | (bs, p1) =>
      if bs.length = 4 then
        if bs.getD 0 0 = 0 then
          (setOffset p1 i (dataOff + 4),
           [MidiOut.timeSignature 4 2 (bs.getD 2 0) (bs.getD 3 0)])
        else
          (setOffset p1 i (dataOff + 4),
           [MidiOut.timeSignature (bs.getD 0 0) (bs.getD 1 0) (bs.getD 2 0) (bs.getD 3 0)])
      else (setOffset p1 i (dataOff + length), [])
  else (setOffset p i (dataOff + length), [])

/-- The `META_TRACK_NAME` (0x03) case: the payload is read for logging only,
then skipped. -/
def metaTrackName (p : Player) (i length dataOff : Nat) : Player × List MidiOut :=
  if 0 < length then
    match readBytesF p dataOff length with
    | (bs, p1) =>
      if bs.length = length then (setOffset p1 i (dataOff + length), [])
      else if p1.fileOpen = false then (p1, [])
      else (setOffset p1 i (dataOff + length), [])
  else (setOffset p i (dataOff + length), [])

/-- The `default` case of `_handleMetaEvent`: skip the declared length, with a
sanity check that the skip stays inside the file (else `stop()`). -/
def metaDefault (p : Player) (i length dataOff : Nat) : Player × List MidiOut :=
  if (setOffset p i (dataOff + length)).fileBytes.length < dataOff + length then
    (stop (setOffset p i (dataOff + length)), [])
  else (setOffset p i (dataOff + length), [])

/-- `_handleMetaEvent(trackIndex, trackOffset)`: meta type byte, VLQ length,
dispatch on the type, then the final force-skip to `dataStart + length`. -/
def handleMetaEvent (p : Player) (i : Nat) : Player × List MidiOut :=
  let (metaType, p1) := readU8 p i
  if p1.fileOpen = false then (p1, [])
  else
    let (length, p2) := readVLQ p1 i
    if p2.fileOpen = false then (p2, [])
    else
      let dataOff := (getTrack p2 i).currentOffset
      let (p3, out) :=
        if metaType = 47 then metaEndOfTrack p2 i length
        else if metaType = 81 then metaTempo p2 i length dataOff
        else if metaType = 88 then metaTimeSignature p2 i length dataOff
        else if metaType = 3 then metaTrackName p2 i length dataOff
        else metaDefault p2 i length dataOff
      if (getTrack p3 i).currentOffset < dataOff + length then
        (setOffset p3 i (dataOff + length), out)
      else (p3, out)

/-- `_handleSysexEvent(trackIndex, type, trackOffset)`: VLQ length, skip the
payload with a file-size sanity check, then cancel running status. -/
def handleSysexEvent (p : Player) (i : Nat) : Player × List MidiOut :=
  let (length, p1) := readVLQ p i
  if p1.fileOpen = false then (p1, [])
  else
    let off := (getTrack p1 i).currentOffset + length
    let p2 := setOffset p1 i off
    if p2.fileBytes.length < off then (stop p2, [])
    else (setTrack p2 i { getTrack p2 i with lastStatusByte := 0 }, [])

/-- `_findTrackWithNextEvent`'s scan loop; `best`/`earliest` carry the best
index and its tick so far (initially none and `UINT64_MAX`). -/
def findLoop : List TrackInfo → Nat → Option Nat → Nat → Option Nat
  | [], _, best, _ => best
  | t :: rest, i, best, earliest =>
    if t.endOfTrackReached = false ∧ t.nextEventTick < earliest then
      findLoop rest (i + 1) (some i) t.nextEventTick
    else
      findLoop rest (i + 1) best earliest

/-- `_findTrackWithNextEvent`: index of the non-finished track with the
smallest `nextEventTick`, ties to the lowest index; `none` plays the role of
the C++ return value `-1`. -/
def findTrackWithNextEvent (tracks : List TrackInfo) : Option Nat :=
  findLoop tracks 0 none U64MAX

/-- The tail of `_processNextEvent`: unless the handler finished the track,
read the next delta-time VLQ and schedule the track's next event at
`eventTick + delta` (64-bit addition). -/
def scheduleNextDelta (p : Player) (i eventTick : Nat) : Player :=
  if (getTrack p i).endOfTrackReached = true then p
  else
    match readVLQ p i with
    | (delta, p2) =>
      if p2.fileOpen = false then p2
      else
        setTrack p2 i
          { getTrack p2 i with nextEventTick := (eventTick + delta) % U64M }

/-- The dispatch on the status byte inside `_processNextEvent`, followed by
the read of the next delta time (skipped if the handler finished the track). -/
def dispatchEvent (p : Player) (i status : Nat) (running : Bool)
    (d1v eventTick : Nat) : Player × List MidiOut :=
  let (p1, out) :=
    if status = 255 then handleMetaEvent p i
    else if status = 240 ∨ status = 247 then handleSysexEvent p i
    else if 128 ≤ status ∧ status ≤ 239 then handleMidiEvent p i status running d1v
    else if 241 ≤ status ∧ status ≤ 254 then
      (setTrack p i { getTrack p i with lastStatusByte := 0 }, [])
    else (p, [])
  (scheduleNextDelta p1 i eventTick, out)

/-- `_processNextEvent()`: select the due track, read the first byte, resolve
running status, update the running-status memory, dispatch, then schedule the
track's next event. -/
def processNextEvent (p : Player) : Player × List MidiOut :=
  match findTrackWithNextEvent p.tracks with
  | none => (p, [])
  | some i =>
    let eventTick := (getTrack p i).nextEventTick
    let (firstByte, p1) := readU8 p i
    if p1.fileOpen = false then (p1, [])
    else if firstByte < 128 then
      let ls := (getTrack p1 i).lastStatusByte
      if ls = 0 ∨ ls < 128 ∨ 240 ≤ ls then
        ({ setTrack p1 i { getTrack p1 i with endOfTrackReached := true } with
            finishedTracks := (p1.finishedTracks + 1) % 256 }, [])
      else dispatchEvent p1 i ls true firstByte eventTick
    else
      let p2 :=
        if 128 ≤ firstByte ∧ firstByte ≤ 239 then
          if (getTrack p1 i).lastStatusByte ≠ firstByte then
            setTrack p1 i { getTrack p1 i with lastStatusByte := firstByte }
          else p1
        else if 240 ≤ firstByte ∧ firstByte ≤ 247 then
          setTrack p1 i { getTrack p1 i with lastStatusByte := 0 }
        else p1
      dispatchEvent p2 i firstByte false 0 eventTick

/-- The delivery order of a whole playback at the scheduler level: the
sequence of `(dueTick, trackIndex)` pairs of the successive
`_processNextEvent()` selections.  (`tick()` only gates this sequence by the
current tick between clock advances; it delivers the events in exactly this
order.) -/
def schedTrace (p : Player) : Nat → List (Nat × Nat)
  | 0 => []
  | fuel + 1 =>
    match findTrackWithNextEvent p.tracks with
    | none => []
    | some i =>
      ((getTrack p i).nextEventTick, i) :: schedTrace (processNextEvent p).1 fuel

/-- Decidable check that during `fuel` scheduler steps no selected track's
`uint64_t` tick counter wraps: after each processed event the selected track
is finished, or its freshly scheduled `nextEventTick` did not decrease (the
player being stopped also qualifies).  This holds for every realistic file;
it can fail only when `eventTick + delta` overflows 2^64. -/
def schedNoWrap (p : Player) : Nat → Bool
  | 0 => true
  | fuel + 1 =>
    match findTrackWithNextEvent p.tracks with
    | none => true
    | some i =>
      let d := (getTrack p i).nextEventTick
      let p1 := (processNextEvent p).1
      (p1.tracks.isEmpty || (getTrack p1 i).endOfTrackReached ||
        decide (d ≤ (getTrack p1 i).nextEventTick))
      && schedNoWrap p1 fuel

/-- Non-decreasing lexicographic order on `(dueTick, trackIndex)` pairs. -/
def pairLE (a b : Nat × Nat) : Prop := a.1 < b.1 ∨ (a.1 = b.1 ∧ a.2 ≤ b.2)

instance : DecidableRel pairLE := by
  intro a b
  unfold pairLE
  infer_instance

/-- `_advanceTickTime()`: elapsed micros (with `micros()` rollover handling),
repair a zero division, convert to elapsed ticks and advance the sync point
by exactly the tick-quantised duration.  The C++ computes
`microsPerTick = (double)usPerQN / division`; the model performs the same
computation with exact integer floors (`ticksElapsed = ⌊Δ·division/usPerQN⌋`,
sync advance `⌊ticksElapsed·usPerQN/division⌋`). -/
def advanceTickTime (p : Player) (now : Nat) : Player :=
  let deltaMicros :=
    if p.lastEventMicros ≤ now then now - p.lastEventMicros
    else ((U64MAX - p.lastEventMicros) + 1 + now) % U64M
  let division := if p.division = 0 then 96 else p.division
  let p1 := { p with division := division }
  if 0 < p1.usPerQN then
    let ticksElapsed := deltaMicros * division / p1.usPerQN
    if 0 < ticksElapsed then
      { p1 with
          currentTick := (p1.currentTick + ticksElapsed) % U64M
          lastEventMicros :=
            (p1.lastEventMicros + ticksElapsed * p1.usPerQN / division) % U64M }
    else p1
  else p1

/-- The `while (true)` event loop of `tick()`: deliver every event due at or
before `currentTick`; after each event, if all tracks are finished, deliver
the playback-complete notification and stop. -/
def tickLoop (p : Player) : Nat → Player × List MidiOut
  | 0 => (p, [])
  | fuel + 1 =>
    match findTrackWithNextEvent p.tracks with
    | none => (p, [])
    | some i =>
      if p.currentTick < (getTrack p i).nextEventTick then (p, [])
      else
        let (p1, out) := processNextEvent p
        if p1.trackCount ≤ p1.finishedTracks then
          (stop p1, out ++ [MidiOut.playbackComplete])
        else
          let (p2, out2) := tickLoop p1 fuel
          (p2, out ++ out2)

/-- `tick()`: a no-op unless PLAYING; otherwise advance the timebase and run
the event loop. -/
def tick (p : Player) (now fuel : Nat) : Player × List MidiOut :=
  if p.state = PlaybackState.PLAYING then tickLoop (advanceTickTime p now) fuel
  else (p, [])

/-- The track-reset loop of `play()` from STOPPED: reset each track's parse
position and read its first delta time.  The loop re-tests `i < _tracks.size()`
every iteration, so it terminates early if a VLQ error stops the player. -/
def playResetLoop (p : Player) : Nat → Nat → Player
  | _, 0 => p
  | i, fuel + 1 =>
    if i < p.tracks.length then
      let t := getTrack p i
      let p1 := setTrack p i
        { t with currentOffset := t.startOffset, lastStatusByte := 0,
                 endOfTrackReached := false }
      let (delta, p2) := readVLQ p1 i
      let p3 := setTrack p2 i { getTrack p2 i with nextEventTick := delta }
      playResetLoop p3 (i + 1) fuel
    else p

/-- `play()`: start from the beginning when STOPPED, or resume when PAUSED by
shifting both time references forward by the paused duration (computed with
`uint64_t` wraparound semantics). -/
def play (p : Player) (now : Nat) : Player :=
  if p.fileOpen = false then p
  else if p.state = PlaybackState.STOPPED then
    let p1 := { p with currentTick := 0, finishedTracks := 0 }
    let p2 := playResetLoop p1 0 p1.tracks.length
    { p2 with playbackStartMicros := now, lastEventMicros := now,
              state := PlaybackState.PLAYING }
  else if p.state = PlaybackState.PAUSED then
    let paused := (now + U64M - p.pauseStartMicros % U64M) % U64M
    { p with
        playbackStartMicros := (p.playbackStartMicros + paused) % U64M,
        lastEventMicros := (p.lastEventMicros + paused) % U64M,
        state := PlaybackState.PLAYING }
  else p

/-- `pause()`: PLAYING → PAUSED, recording the pause instant. -/
def pause (p : Player) (now : Nat) : Player :=
  if p.state = PlaybackState.PLAYING then
    { p with state := PlaybackState.PAUSED, pauseStartMicros := now }
  else p

/-- `resume()`: `play()` when PAUSED, otherwise a warning only. -/
def resume (p : Player) (now : Nat) : Player :=
  if p.state = PlaybackState.PAUSED then play p now else p

/-- `getCurrentTick()`: the 64-bit tick counter cast to `uint32_t`. -/
def getCurrentTick (p : Player) : Nat := p.currentTick % U32M

/-- `getTempo()`. -/
def getTempo (p : Player) : Nat := p.usPerQN

/-! ## Basic lemmas about `stop`, `setTrack`, `setOffset`, `getTrack` -/

@[simp] theorem stop_state (p : Player) : (stop p).state = PlaybackState.STOPPED := rfl

@[simp] theorem stop_fileOpen (p : Player) : (stop p).fileOpen = false := rfl

@[simp] theorem stop_tracks (p : Player) : (stop p).tracks = [] := rfl

@[simp] theorem stop_fileBytes (p : Player) : (stop p).fileBytes = p.fileBytes := rfl

@[simp] theorem stop_stop (p : Player) : stop (stop p) = stop p := rfl

@[simp] theorem setTrack_fileBytes (p : Player) (i : Nat) (t : TrackInfo) :
    (setTrack p i t).fileBytes = p.fileBytes := rfl

@[simp] theorem setTrack_fileOpen (p : Player) (i : Nat) (t : TrackInfo) :
    (setTrack p i t).fileOpen = p.fileOpen := rfl

@[simp] theorem setTrack_state (p : Player) (i : Nat) (t : TrackInfo) :
    (setTrack p i t).state = p.state := rfl

@[simp] theorem setTrack_usPerQN (p : Player) (i : Nat) (t : TrackInfo) :
    (setTrack p i t).usPerQN = p.usPerQN := rfl

@[simp] theorem setTrack_trackCount (p : Player) (i : Nat) (t : TrackInfo) :
    (setTrack p i t).trackCount = p.trackCount := rfl

@[simp] theorem setTrack_finishedTracks (p : Player) (i : Nat) (t : TrackInfo) :
    (setTrack p i t).finishedTracks = p.finishedTracks := rfl

@[simp] theorem setTrack_currentTick (p : Player) (i : Nat) (t : TrackInfo) :
    (setTrack p i t).currentTick = p.currentTick := rfl

@[simp] theorem setTrack_tracks (p : Player) (i : Nat) (t : TrackInfo) :
    (setTrack p i t).tracks = p.tracks.set i t := rfl

@[simp] theorem stop_setTrack (p : Player) (i : Nat) (t : TrackInfo) :
    stop (setTrack p i t) = stop p := rfl

@[simp] theorem stop_setOffset (p : Player) (i o : Nat) :
    stop (setOffset p i o) = stop p := rfl

theorem setTrack_self (p : Player) (i : Nat) (h : ¬ i < p.tracks.length) (t : TrackInfo) :
    setTrack p i t = p := by
  have : p.tracks.set i t = p.tracks := List.set_eq_of_length_le (by omega)
  simp [setTrack, this]

theorem setTrack_nil {p : Player} (h : p.tracks = []) (i : Nat) (t : TrackInfo) :
    setTrack p i t = p := by
  apply setTrack_self
  simp [h]

theorem setTrack_stop (p : Player) (i : Nat) (t : TrackInfo) :
    setTrack (stop p) i t = stop p := setTrack_nil rfl i t

theorem setOffset_stop (p : Player) (i o : Nat) : setOffset (stop p) i o = stop p :=
  setTrack_stop p i _

theorem getTrack_setTrack_self (p : Player) (i : Nat) (h : i < p.tracks.length)
    (t : TrackInfo) : getTrack (setTrack p i t) i = t := by
  simp [getTrack, setTrack, List.getD_eq_getElem?_getD, List.getElem?_set_self h]

theorem getTrack_setTrack_ne (p : Player) (i j : Nat) (h : i ≠ j) (t : TrackInfo) :
    getTrack (setTrack p i t) j = getTrack p j := by
  simp [getTrack, setTrack, List.getD_eq_getElem?_getD, List.getElem?_set_ne h]

theorem setTrack_setTrack (p : Player) (i : Nat) (t t' : TrackInfo) :
    setTrack (setTrack p i t) i t' = setTrack p i t' := by
  simp [setTrack, List.set_set]

@[simp] theorem setOffset_fileBytes (p : Player) (i o : Nat) :
    (setOffset p i o).fileBytes = p.fileBytes := rfl

@[simp] theorem setOffset_fileOpen (p : Player) (i o : Nat) :
    (setOffset p i o).fileOpen = p.fileOpen := rfl

@[simp] theorem setOffset_state (p : Player) (i o : Nat) :
    (setOffset p i o).state = p.state := rfl

@[simp] theorem setOffset_usPerQN (p : Player) (i o : Nat) :
    (setOffset p i o).usPerQN = p.usPerQN := rfl

theorem getTrack_setOffset_self (p : Player) (i : Nat) (h : i < p.tracks.length) (o : Nat) :
    getTrack (setOffset p i o) i = { getTrack p i with currentOffset := o } :=
  getTrack_setTrack_self p i h _

theorem getTrack_setOffset_ne (p : Player) (i j : Nat) (h : i ≠ j) (o : Nat) :
    getTrack (setOffset p i o) j = getTrack p j :=
  getTrack_setTrack_ne p i j h _

theorem setOffset_setOffset (p : Player) (i a b : Nat) :
    setOffset (setOffset p i a) i b = setOffset p i b := by
  by_cases h : i < p.tracks.length
  · unfold setOffset
    rw [getTrack_setTrack_self p i h]
    exact setTrack_setTrack p i _ _
  · unfold setOffset
    rw [setTrack_self p i h, setTrack_self p i h]

theorem setTrack_setOffset (p : Player) (i o : Nat) (t : TrackInfo) :
    setTrack (setOffset p i o) i t = setTrack p i t := by
  unfold setOffset
  exact setTrack_setTrack p i _ t

/-! ## Lemmas about the storage reads -/

theorem drop_of_getElem? {l : List Nat} {off : Nat} {b : Nat} (h : l[off]? = some b) :
    l.drop off = b :: l.drop (off + 1) := by
  obtain ⟨hlt, hb⟩ := List.getElem?_eq_some_iff.mp h
  rw [List.drop_eq_getElem_cons hlt, hb]

theorem readBytesF_closed (p : Player) (off len : Nat) (h : p.fileOpen = false) :
    readBytesF p off len = ([], p) := by
  simp [readBytesF, h]

theorem readBytesF_seekFail (p : Player) (off len : Nat) (h : p.fileOpen = true)
    (h2 : p.fileBytes.length < off) : readBytesF p off len = ([], stop p) := by
  simp [readBytesF, h, h2]

theorem readBytesF_one (p : Player) (off : Nat) (b : Nat) (h : p.fileOpen = true)
    (hb : p.fileBytes[off]? = some b) : readBytesF p off 1 = ([b % 256], p) := by
  have hlt : off < p.fileBytes.length := (List.getElem?_eq_some_iff.mp hb).1
  simp [readBytesF, h, Nat.not_lt.mpr (Nat.le_of_lt hlt), drop_of_getElem? hb]

theorem readBytesF_player (p : Player) (off len : Nat) :
    (readBytesF p off len).2 = p ∨ (readBytesF p off len).2 = stop p := by
  unfold readBytesF
  split
  · exact Or.inl rfl
  · split
    · exact Or.inr rfl
    · exact Or.inl rfl

theorem readBytesF_atEOF (p : Player) (off len : Nat) (h : p.fileOpen = true)
    (h1 : p.fileBytes.length ≤ off) (h2 : ¬ p.fileBytes.length < off) :
    readBytesF p off len = ([], p) := by
  have hdrop : p.fileBytes.drop off = [] := List.drop_eq_nil_of_le h1
  simp [readBytesF, h, h2, hdrop]

theorem readU8_success (p : Player) (i : Nat) (b : Nat) (h : p.fileOpen = true)
    (hb : p.fileBytes[(getTrack p i).currentOffset]? = some b) :
    readU8 p i = (b % 256, setOffset p i ((getTrack p i).currentOffset + 1)) := by
  unfold readU8
  rw [readBytesF_one p _ b h hb]

theorem readU8_eof (p : Player) (i : Nat) (h : p.fileOpen = true)
    (hb : p.fileBytes.length ≤ (getTrack p i).currentOffset) :
    readU8 p i = (0, stop p) := by
  unfold readU8
  by_cases hlt : p.fileBytes.length < (getTrack p i).currentOffset
  · rw [readBytesF_seekFail p _ 1 h hlt]
    simp
  · rw [readBytesF_atEOF p _ 1 h hb hlt]

theorem readU8_closed (p : Player) (i : Nat) (h : p.fileOpen = false) :
    readU8 p i = (0, stop p) := by
  unfold readU8
  rw [readBytesF_closed p _ 1 h]

theorem readU8_snd (p : Player) (i : Nat) :
    (readU8 p i).2 = setOffset p i ((getTrack p i).currentOffset + 1) ∨
    (readU8 p i).2 = stop p := by
  unfold readU8
  rcases h : readBytesF p ((getTrack p i).currentOffset) 1 with ⟨bs, p1⟩
  have hp1 : p1 = p ∨ p1 = stop p := by
    have := readBytesF_player p ((getTrack p i).currentOffset) 1
    rw [h] at this
    exact this
  match bs with
  | [] => rcases hp1 with h1 | h1 <;> simp [h1]
  | [b] =>
    rcases hp1 with h1 | h1
    · left
      simp [h1]
    · right
      subst h1
      simp [setOffset_stop]
  | b :: b' :: rest => rcases hp1 with h1 | h1 <;> simp [h1]

theorem readBytesF_cons (p : Player) (off len : Nat) (x : Nat) (xs : List Nat)
    (p1 : Player) (h : readBytesF p off len = (x :: xs, p1)) : p1 = p := by
  unfold readBytesF at h
  split at h
  · simp at h
  · split at h
    · simp at h
    · injection h with h1 h2
      exact h2.symm

/-! ## Lemmas about VLQ decoding -/

theorem readVLQ_single (p : Player) (i : Nat) (b : Nat) (h : p.fileOpen = true)
    (hb : p.fileBytes[(getTrack p i).currentOffset]? = some b) (hlow : b % 256 < 128) :
    readVLQ p i = (b % 256, setOffset p i ((getTrack p i).currentOffset + 1)) := by
  unfold readVLQ readVLQAux
  rw [readBytesF_one p _ b h hb]
  have h1 : ¬ (0 + 1 > 4) := by omega
  have h2 : ¬ (128 ≤ b % 256) := by omega
  have h3 : b % 256 % 128 = b % 256 := Nat.mod_eq_of_lt hlow
  have h4 : b % 256 < U32M := by
    have := Nat.mod_lt b (show 0 < 256 by omega)
    unfold U32M
    omega
  simp [h1, h2, h3, Nat.mod_eq_of_lt h4]

theorem readVLQAux_count4 (p : Player) (i v fuel : Nat) :
    (readVLQAux p i v 4 (fuel + 1)).2 = stop p := by
  unfold readVLQAux
  rcases h : readBytesF p ((getTrack p i).currentOffset) 1 with ⟨bs, p1⟩
  have hp1 : p1 = p ∨ p1 = stop p := by
    have := readBytesF_player p ((getTrack p i).currentOffset) 1
    rw [h] at this
    exact this
  match bs with
  | [] => rcases hp1 with h1 | h1 <;> simp [h1]
  | [b] =>
    have h5 : (4 + 1 > 4) = True := by simp
    rcases hp1 with h1 | h1 <;> subst h1 <;> simp [h5, setOffset_stop]
  | b :: b' :: rest => rcases hp1 with h1 | h1 <;> simp [h1]

theorem readVLQAux_step (p : Player) (i v c fuel : Nat) (b : Nat)
    (h : p.fileOpen = true) (hb : p.fileBytes[(getTrack p i).currentOffset]? = some b)
    (hc : c + 1 ≤ 4) (hmsb : 128 ≤ b % 256) :
    readVLQAux p i v c (fuel + 1) =
      readVLQAux (setOffset p i ((getTrack p i).currentOffset + 1)) i
        ((v * 128 + b % 256 % 128) % U32M) (c + 1) fuel := by
  conv_lhs => rw [readVLQAux.eq_def]
  rw [readBytesF_one p _ b h hb]
  have h1 : ¬ (c + 1 > 4) := by omega
  simp [h1, hmsb]

theorem readVLQ_tooLong (p : Player) (i : Nat) (hi : i < p.tracks.length)
    (h : p.fileOpen = true)
    (hk : ∀ k, k < 4 →
      ∃ b, p.fileBytes[(getTrack p i).currentOffset + k]? = some b ∧ 128 ≤ b % 256) :
    (readVLQ p i).2 = stop p := by
  obtain ⟨b0, hb0, m0⟩ := hk 0 (by omega)
  obtain ⟨b1, hb1, m1⟩ := hk 1 (by omega)
  obtain ⟨b2, hb2, m2⟩ := hk 2 (by omega)
  obtain ⟨b3, hb3, m3⟩ := hk 3 (by omega)
  have hlen : ∀ o : Nat, (setOffset p i o).tracks.length = p.tracks.length := by
    intro o
    simp [setOffset]
  have hoff : ∀ o : Nat, (getTrack (setOffset p i o) i).currentOffset = o := by
    intro o
    rw [getTrack_setOffset_self p i hi o]
  unfold readVLQ
  rw [readVLQAux_step p i 0 0 4 b0 h (by simpa using hb0) (by omega) m0]
  rw [readVLQAux_step _ i _ 1 3 b1 (by simp [h]) (by simp [hoff]; simpa using hb1)
      (by omega) m1, setOffset_setOffset]
  rw [hoff]
  rw [readVLQAux_step _ i _ 2 2 b2 (by simp [h]) (by simp [hoff]; simpa using hb2)
      (by omega) m2, setOffset_setOffset]
  rw [hoff]
  rw [readVLQAux_step _ i _ 3 1 b3 (by simp [h]) (by simp [hoff]; simpa using hb3)
      (by omega) m3, setOffset_setOffset]
  rw [readVLQAux_count4, stop_setOffset]

theorem readVLQAux_snd (i : Nat) : ∀ (fuel : Nat) (p : Player) (v c : Nat),
    (readVLQAux p i v c fuel).2 = p ∨ (readVLQAux p i v c fuel).2 = stop p ∨
    ∃ o, (readVLQAux p i v c fuel).2 = setOffset p i o := by
  intro fuel
  induction fuel with
  | zero => intro p v c; exact Or.inl rfl
  | succ fuel ih =>
    intro p v c
    unfold readVLQAux
    rcases h : readBytesF p ((getTrack p i).currentOffset) 1 with ⟨bs, p1⟩
    have hp1 : p1 = p ∨ p1 = stop p := by
      have := readBytesF_player p ((getTrack p i).currentOffset) 1
      rw [h] at this
      exact this
    match bs with
    | [] =>
      rcases hp1 with h1 | h1 <;> simp [h1]
    | [b] =>
      have hp : p1 = p := readBytesF_cons p _ 1 b [] p1 h
      subst hp
      by_cases hc : c + 1 > 4
      · simp [hc]
      · by_cases hmsb : 128 ≤ b
        · simp only [if_neg hc, if_pos hmsb]
          rcases ih (setOffset p1 i ((getTrack p1 i).currentOffset + 1))
              ((v * 128 + b % 128) % U32M) (c + 1) with h2 | h2 | ⟨o, h2⟩
          · right; right
            exact ⟨_, h2⟩
          · right; left
            rw [h2, stop_setOffset]
          · right; right
            rw [h2, setOffset_setOffset]
            exact ⟨o, rfl⟩
        · simp only [if_neg hc, if_neg hmsb]
          right; right
          exact ⟨_, rfl⟩
    | b :: b' :: rest =>
      rcases hp1 with h1 | h1 <;> simp [h1]

theorem readVLQ_snd (p : Player) (i : Nat) :
    (readVLQ p i).2 = p ∨ (readVLQ p i).2 = stop p ∨
    ∃ o, (readVLQ p i).2 = setOffset p i o :=
  readVLQAux_snd i 5 p 0 0

/-! ## Track-locality: every decode step touches at most one track

`modTrk p q i` says `q`'s track vector is `p`'s with at most index `i`
changed, or is empty (the player was stopped).  `lsKeep` additionally records
that track `i`'s running-status memory is unchanged. -/

def modTrk (p q : Player) (i : Nat) : Prop :=
  q.tracks = [] ∨ q.tracks = p.tracks ∨ ∃ t, q.tracks = p.tracks.set i t

def lsKeep (p q : Player) (i : Nat) : Prop :=
  modTrk p q i ∧
    (q.tracks = [] ∨ (getTrack q i).lastStatusByte = (getTrack p i).lastStatusByte)

theorem modTrk_refl (p : Player) (i : Nat) : modTrk p p i := Or.inr (Or.inl rfl)

theorem modTrk_of_tracks_eq {p q : Player} (i : Nat) (h : q.tracks = p.tracks) :
    modTrk p q i := Or.inr (Or.inl h)

theorem modTrk_stop (p q : Player) (i : Nat) : modTrk p (stop q) i := Or.inl rfl

theorem modTrk_nil {p q : Player} {i : Nat} (h : modTrk p q i) (hn : p.tracks = []) :
    q.tracks = [] := by
  rcases h with h | h | ⟨t, h⟩
  · exact h
  · rw [h, hn]
  · rw [h, hn]
    rfl

theorem modTrk_trans {p q r : Player} {i : Nat} (h1 : modTrk p q i)
    (h2 : modTrk q r i) : modTrk p r i := by
  rcases h2 with h2 | h2 | ⟨t', h2⟩
  · exact Or.inl h2
  · rcases h1 with h1 | h1 | ⟨t, h1⟩
    · exact Or.inl (h2.trans h1)
    · exact Or.inr (Or.inl (h2.trans h1))
    · exact Or.inr (Or.inr ⟨t, h2.trans h1⟩)
  · rcases h1 with h1 | h1 | ⟨t, h1⟩
    · rw [h1] at h2
      exact Or.inl (by simpa using h2)
    · rw [h1] at h2
      exact Or.inr (Or.inr ⟨t', h2⟩)
    · rw [h1, List.set_set] at h2
      exact Or.inr (Or.inr ⟨t', h2⟩)

theorem modTrk_length {p q : Player} {i : Nat} (h : modTrk p q i) :
    q.tracks = [] ∨ q.tracks.length = p.tracks.length := by
  rcases h with h | h | ⟨t, h⟩
  · exact Or.inl h
  · exact Or.inr (by rw [h])
  · exact Or.inr (by rw [h, List.length_set])

theorem modTrk_getElem?_ne {p q : Player} {i : Nat} (h : modTrk p q i) (j : Nat)
    (hj : i ≠ j) : q.tracks = [] ∨ q.tracks[j]? = p.tracks[j]? := by
  rcases h with h | h | ⟨t, h⟩
  · exact Or.inl h
  · exact Or.inr (by rw [h])
  · exact Or.inr (by rw [h, List.getElem?_set_ne hj])

theorem getTrack_of_set {p q : Player} {i : Nat} {t : TrackInfo}
    (hq : q.tracks = p.tracks.set i t) (hi : i < p.tracks.length) :
    getTrack q i = t := by
  simp [getTrack, hq, List.getD_eq_getElem?_getD,
    List.getElem?_set_self (by simpa using hi)]

theorem lsKeep_of_set (p q : Player) (i : Nat) (t : TrackInfo)
    (htr : q.tracks = p.tracks.set i t)
    (hls : t.lastStatusByte = (getTrack p i).lastStatusByte) : lsKeep p q i := by
  refine ⟨Or.inr (Or.inr ⟨t, htr⟩), Or.inr ?_⟩
  by_cases hi : i < p.tracks.length
  · rw [getTrack_of_set htr hi, hls]
  · have heq : q.tracks = p.tracks := htr.trans (List.set_eq_of_length_le (by omega))
    simp [getTrack, heq]

theorem lsKeep_refl (p : Player) (i : Nat) : lsKeep p p i :=
  ⟨modTrk_refl p i, Or.inr rfl⟩

theorem lsKeep_of_tracks_eq {p q : Player} (i : Nat) (h : q.tracks = p.tracks) :
    lsKeep p q i :=
  ⟨modTrk_of_tracks_eq i h, Or.inr (by simp [getTrack, h])⟩

theorem lsKeep_stop (p q : Player) (i : Nat) : lsKeep p (stop q) i :=
  ⟨modTrk_stop p q i, Or.inl rfl⟩

theorem lsKeep_trans {p q r : Player} {i : Nat} (h1 : lsKeep p q i)
    (h2 : lsKeep q r i) : lsKeep p r i := by
  refine ⟨modTrk_trans h1.1 h2.1, ?_⟩
  rcases h2.2 with h | h
  · exact Or.inl h
  · rcases h1.2 with h' | h'
    · exact Or.inl (modTrk_nil h2.1 h')
    · exact Or.inr (h.trans h')

theorem lsKeep_setOffset (p : Player) (i o : Nat) : lsKeep p (setOffset p i o) i := by
  by_cases hi : i < p.tracks.length
  · exact lsKeep_of_set p _ i _ rfl rfl
  · rw [show setOffset p i o = p from setTrack_self p i hi _]
    exact lsKeep_refl p i

theorem lsKeep_readU8 (p : Player) (i : Nat) : lsKeep p (readU8 p i).2 i := by
  rcases readU8_snd p i with h | h
  · rw [h]
    exact lsKeep_setOffset p i _
  · rw [h]
    exact lsKeep_stop p p i

theorem lsKeep_readVLQ (p : Player) (i : Nat) : lsKeep p (readVLQ p i).2 i := by
  rcases readVLQ_snd p i with h | h | ⟨o, h⟩
  · rw [h]
    exact lsKeep_refl p i
  · rw [h]
    exact lsKeep_stop p p i
  · rw [h]
    exact lsKeep_setOffset p i o

theorem lsKeep_scheduleNextDelta (p : Player) (i e : Nat) :
    lsKeep p (scheduleNextDelta p i e) i := by
  unfold scheduleNextDelta
  split
  · exact lsKeep_refl p i
  · rcases h : readVLQ p i with ⟨delta, p2⟩
    have hk : lsKeep p p2 i := by
      have := lsKeep_readVLQ p i
      rw [h] at this
      exact this
    simp only [h]
    by_cases hopen : p2.fileOpen = false
    · rw [if_pos hopen]
      exact hk
    · rw [if_neg hopen]
      exact lsKeep_trans hk (lsKeep_of_set p2 _ i _ rfl rfl)

@[simp] theorem setTrack_length (p : Player) (i : Nat) (t : TrackInfo) :
    (setTrack p i t).tracks.length = p.tracks.length := by
  simp [setTrack]

@[simp] theorem setOffset_length (p : Player) (i o : Nat) :
    (setOffset p i o).tracks.length = p.tracks.length := by
  simp [setOffset]

theorem lsKeep_handleMidiEvent (p : Player) (i s : Nat) (r : Bool) (d : Nat) :
    lsKeep p (handleMidiEvent p i s r d).1 i := by
  unfold handleMidiEvent
  rcases h1 : readU8 p i with ⟨d1, p1⟩
  rcases h2 : readU8 p1 i with ⟨d2, p2⟩
  have hk1 : lsKeep p p1 i := by
    have := lsKeep_readU8 p i
    rw [h1] at this
    exact this
  have hk2 : lsKeep p1 p2 i := by
    have := lsKeep_readU8 p1 i
    rw [h2] at this
    exact this
  simp only [h1, h2]
  split
  · split
    · split <;> exact hk1
    · split
      · exact hk1
      · split <;> exact lsKeep_trans hk1 hk2
  · split
    · split
      · exact lsKeep_refl p i
      · split <;> exact hk1
    · exact lsKeep_refl p i

theorem lsKeep_metaEndOfTrackCore (p : Player) (i : Nat) :
    lsKeep p (metaEndOfTrackCore p i).1 i := by
  unfold metaEndOfTrackCore
  split
  · exact lsKeep_of_set p _ i _ rfl rfl
  · exact lsKeep_refl p i

theorem lsKeep_metaEndOfTrack (p : Player) (i length : Nat) :
    lsKeep p (metaEndOfTrack p i length).1 i := by
  unfold metaEndOfTrack
  split
  · exact lsKeep_trans (lsKeep_metaEndOfTrackCore p i) (lsKeep_setOffset _ i _)
  · exact lsKeep_metaEndOfTrackCore p i

theorem lsKeep_metaTempo (p : Player) (i length dataOff : Nat) :
    lsKeep p (metaTempo p i length dataOff).1 i := by
  unfold metaTempo
  rcases hB : readBytesF p dataOff 3 with ⟨bs, p1⟩
  have hp1 : p1 = p ∨ p1 = stop p := by
    have := readBytesF_player p dataOff 3
    rw [hB] at this
    exact this
  have hk1 : lsKeep p p1 i := by
    rcases hp1 with h | h
    · rw [h]
      exact lsKeep_refl p i
    · rw [h]
      exact lsKeep_stop p p i
  split
  · simp only [hB]
    split
    · split
      · exact lsKeep_trans hk1 (lsKeep_setOffset p1 i _)
      · exact lsKeep_trans (lsKeep_trans hk1 (lsKeep_setOffset p1 i _))
          (lsKeep_of_tracks_eq i rfl)
    · exact lsKeep_trans hk1 (lsKeep_setOffset p1 i _)
  · exact lsKeep_setOffset p i _

theorem lsKeep_metaTimeSignature (p : Player) (i length dataOff : Nat) :
    lsKeep p (metaTimeSignature p i length dataOff).1 i := by
  unfold metaTimeSignature
  rcases hB : readBytesF p dataOff 4 with ⟨bs, p1⟩
  have hp1 : p1 = p ∨ p1 = stop p := by
    have := readBytesF_player p dataOff 4
    rw [hB] at this
    exact this
  have hk1 : lsKeep p p1 i := by
    rcases hp1 with h | h
    · rw [h]
      exact lsKeep_refl p i
    · rw [h]
      exact lsKeep_stop p p i
  split
  · simp only [hB]
    split
    · split <;> exact lsKeep_trans hk1 (lsKeep_setOffset p1 i _)
    · exact lsKeep_trans hk1 (lsKeep_setOffset p1 i _)
  · exact lsKeep_setOffset p i _

theorem lsKeep_metaTrackName (p : Player) (i length dataOff : Nat) :
    lsKeep p (metaTrackName p i length dataOff).1 i := by
  unfold metaTrackName
  rcases hB : readBytesF p dataOff length with ⟨bs, p1⟩
  have hp1 : p1 = p ∨ p1 = stop p := by
    have := readBytesF_player p dataOff length
    rw [hB] at this
    exact this
  have hk1 : lsKeep p p1 i := by
    rcases hp1 with h | h
    · rw [h]
      exact lsKeep_refl p i
    · rw [h]
      exact lsKeep_stop p p i
  split
  · simp only [hB]
    split
    · exact lsKeep_trans hk1 (lsKeep_setOffset p1 i _)
    · split
      · exact hk1
      · exact lsKeep_trans hk1 (lsKeep_setOffset p1 i _)
  · exact lsKeep_setOffset p i _

theorem lsKeep_metaDefault (p : Player) (i length dataOff : Nat) :
    lsKeep p (metaDefault p i length dataOff).1 i := by
  unfold metaDefault
  split
  · exact lsKeep_stop p _ i
  · exact lsKeep_setOffset p i _

theorem lsKeep_handleMetaEvent (p : Player) (i : Nat) :
    lsKeep p (handleMetaEvent p i).1 i := by
  unfold handleMetaEvent
  rcases hU : readU8 p i with ⟨mt, p1⟩
  have hk1 : lsKeep p p1 i := by
    have := lsKeep_readU8 p i
    rw [hU] at this
    exact this
  simp only [hU]
  split
  · exact hk1
  · rcases hV : readVLQ p1 i with ⟨len, p2⟩
    have hk2 : lsKeep p p2 i := by
      have := lsKeep_readVLQ p1 i
      rw [hV] at this
      exact lsKeep_trans hk1 this
    simp only [hV]
    split
    · exact hk2
    · rcases h3 : (if mt = 47 then metaEndOfTrack p2 i len
            else if mt = 81 then metaTempo p2 i len ((getTrack p2 i).currentOffset)
            else if mt = 88 then metaTimeSignature p2 i len ((getTrack p2 i).currentOffset)
            else if mt = 3 then metaTrackName p2 i len ((getTrack p2 i).currentOffset)
            else metaDefault p2 i len ((getTrack p2 i).currentOffset)) with ⟨p3, out3⟩
      have hk3 : lsKeep p2 p3 i := by
        have hx : lsKeep p2 ((if mt = 47 then metaEndOfTrack p2 i len
            else if mt = 81 then metaTempo p2 i len ((getTrack p2 i).currentOffset)
            else if mt = 88 then metaTimeSignature p2 i len ((getTrack p2 i).currentOffset)
            else if mt = 3 then metaTrackName p2 i len ((getTrack p2 i).currentOffset)
            else metaDefault p2 i len ((getTrack p2 i).currentOffset))).1 i := by
          split
          · exact lsKeep_metaEndOfTrack p2 i len
          · split
            · exact lsKeep_metaTempo p2 i len _
            · split
              · exact lsKeep_metaTimeSignature p2 i len _
              · split
                · exact lsKeep_metaTrackName p2 i len _
                · exact lsKeep_metaDefault p2 i len _
        rw [h3] at hx
        exact hx
      simp only [h3]
      split
      · exact lsKeep_trans hk2 (lsKeep_trans hk3 (lsKeep_setOffset p3 i _))
      · exact lsKeep_trans hk2 hk3

theorem modTrk_handleSysexEvent (p : Player) (i : Nat) :
    modTrk p (handleSysexEvent p i).1 i := by
  unfold handleSysexEvent
  rcases hV : readVLQ p i with ⟨len, p1⟩
  have hk1 : lsKeep p p1 i := by
    have := lsKeep_readVLQ p i
    rw [hV] at this
    exact this
  simp only [hV]
  split
  · exact hk1.1
  · have hk2 : lsKeep p (setOffset p1 i ((getTrack p1 i).currentOffset + len)) i :=
      lsKeep_trans hk1 (lsKeep_setOffset p1 i _)
    split
    · exact modTrk_trans hk2.1 (modTrk_stop _ _ i)
    · exact modTrk_trans hk2.1 (Or.inr (Or.inr ⟨_, rfl⟩))

theorem handleSysexEvent_ls (p : Player) (i : Nat) (h : p.fileOpen = true)
    (hi : i < p.tracks.length) :
    (handleSysexEvent p i).1.tracks = [] ∨
    (getTrack (handleSysexEvent p i).1 i).lastStatusByte = 0 := by
  unfold handleSysexEvent
  rcases hV : readVLQ p i with ⟨len, p1⟩
  have hp1 : p1 = p ∨ p1 = stop p ∨ ∃ o, p1 = setOffset p i o := by
    have := readVLQ_snd p i
    rw [hV] at this
    exact this
  simp only [hV]
  split
  · next hopen =>
    rcases hp1 with h1 | h1 | ⟨o, h1⟩
    · rw [h1, h] at hopen
      simp at hopen
    · left
      rw [h1]
      rfl
    · rw [h1] at hopen
      simp [h] at hopen
  · next hopen =>
    have hpl : p1.tracks.length = p.tracks.length := by
      rcases hp1 with h1 | h1 | ⟨o, h1⟩
      · rw [h1]
      · rw [h1] at hopen
        simp at hopen
      · rw [h1]
        simp
    split
    · left
      rfl
    · right
      have hlen : i < (setOffset p1 i ((getTrack p1 i).currentOffset + len)).tracks.length := by
        simp [hpl, hi]
      rw [getTrack_setTrack_self _ i hlen]

/-! ## Specification of `_findTrackWithNextEvent` -/

/-- `_tracks[j].endOfTrackReached`, as a function of the track list. -/
def eotAt (ts : List TrackInfo) (j : Nat) : Bool := (ts.getD j {}).endOfTrackReached

/-- `_tracks[j].nextEventTick`, as a function of the track list. -/
def dueAt (ts : List TrackInfo) (j : Nat) : Nat := (ts.getD j {}).nextEventTick

@[simp] theorem eotAt_cons_zero (t : TrackInfo) (ts : List TrackInfo) :
    eotAt (t :: ts) 0 = t.endOfTrackReached := rfl

@[simp] theorem eotAt_cons_succ (t : TrackInfo) (ts : List TrackInfo) (m : Nat) :
    eotAt (t :: ts) (m + 1) = eotAt ts m := rfl

@[simp] theorem dueAt_cons_zero (t : TrackInfo) (ts : List TrackInfo) :
    dueAt (t :: ts) 0 = t.nextEventTick := rfl

@[simp] theorem dueAt_cons_succ (t : TrackInfo) (ts : List TrackInfo) (m : Nat) :
    dueAt (t :: ts) (m + 1) = dueAt ts m := rfl

/-- Post-condition of the scan loop of `_findTrackWithNextEvent`: either the
carried candidate is returned and no scanned track beats `earliest`, or the
loop returns the first scanned track that realises the minimum. -/
theorem findLoop_post (ts : List TrackInfo) : ∀ (i : Nat) (best : Option Nat) (earliest : Nat),
    (findLoop ts i best earliest = best ∧
      ∀ m, m < ts.length → eotAt ts m = false → earliest ≤ dueAt ts m)
    ∨ (∃ m, m < ts.length ∧ eotAt ts m = false ∧
        findLoop ts i best earliest = some (i + m) ∧ dueAt ts m < earliest ∧
        (∀ m', m' < m → eotAt ts m' = false → dueAt ts m < dueAt ts m') ∧
        (∀ m', m < m' → m' < ts.length → eotAt ts m' = false → dueAt ts m ≤ dueAt ts m')) := by
  induction ts with
  | nil =>
    intro i best earliest
    left
    refine ⟨rfl, ?_⟩
    intro m hm
    simp at hm
  | cons t rest ih =>
    intro i best earliest
    by_cases hc : t.endOfTrackReached = false ∧ t.nextEventTick < earliest
    · have hstep : findLoop (t :: rest) i best earliest =
          findLoop rest (i + 1) (some i) t.nextEventTick := by
        simp [findLoop, hc]
      rcases ih (i + 1) (some i) t.nextEventTick with ⟨heq, hall⟩ |
          ⟨m, hm, hme, heq, hlt, hbefore, hafter⟩
      · right
        refine ⟨0, by simp, by simpa using hc.1, ?_, by simpa using hc.2, ?_, ?_⟩
        · rw [hstep, heq]
          simp
        · intro m' hm'
          omega
        · intro m' hm0 hm' hme'
          match m', hm0 with
          | m'' + 1, _ =>
            simpa using hall m'' (by simpa using hm') (by simpa using hme')
      · right
        refine ⟨m + 1, by simpa using hm, by simpa using hme, ?_, by simpa using (by omega : dueAt rest m < earliest), ?_, ?_⟩
        · rw [hstep, heq]
          congr 1
          omega
        · intro m' hm0 hme'
          match m' with
          | 0 =>
            simp only [dueAt_cons_succ, dueAt_cons_zero]
            simpa using hlt
          | m'' + 1 =>
            simp only [dueAt_cons_succ]
            exact hbefore m'' (by omega) (by simpa using hme')
        · intro m' hm0 hm' hme'
          match m', hm0 with
          | m'' + 1, _ =>
            simp only [dueAt_cons_succ]
            exact hafter m'' (by omega) (by simpa using hm') (by simpa using hme')
    · have hstep : findLoop (t :: rest) i best earliest =
          findLoop rest (i + 1) best earliest := by
        simp only [findLoop, if_neg hc]
      rcases ih (i + 1) best earliest with ⟨heq, hall⟩ |
          ⟨m, hm, hme, heq, hlt, hbefore, hafter⟩
      · left
        refine ⟨by rw [hstep, heq], ?_⟩
        intro m hm0 hme
        match m with
        | 0 =>
          simp only [dueAt_cons_zero]
          simp only [eotAt_cons_zero] at hme
          rcases Decidable.not_and_iff_or_not.mp hc with h | h
          · exact absurd hme h
          · omega
        | m'' + 1 =>
          simpa using hall m'' (by simpa using hm0) (by simpa using hme)
      · right
        refine ⟨m + 1, by simpa using hm, by simpa using hme, ?_, by simpa using hlt, ?_, ?_⟩
        · rw [hstep, heq]
          congr 1
          omega
        · intro m' hm0 hme'
          match m' with
          | 0 =>
            simp only [dueAt_cons_succ, dueAt_cons_zero]
            simp only [eotAt_cons_zero] at hme'
            rcases Decidable.not_and_iff_or_not.mp hc with h | h
            · exact absurd hme' h
            · simp only [Nat.not_lt] at h
              omega
          | m'' + 1 =>
            simp only [dueAt_cons_succ]
            exact hbefore m'' (by omega) (by simpa using hme')
        · intro m' hm0 hm' hme'
          match m', hm0 with
          | m'' + 1, _ =>
            simp only [dueAt_cons_succ]
            exact hafter m'' (by omega) (by simpa using hm') (by simpa using hme')

/-- Soundness of `_findTrackWithNextEvent`: a returned index is in range,
names a non-finished track, and realises the minimal due tick with ties
broken towards the lowest index. -/
theorem find_spec (ts : List TrackInfo) (k : Nat)
    (h : findTrackWithNextEvent ts = some k) :
    k < ts.length ∧ eotAt ts k = false ∧
    ∀ j, j < ts.length → eotAt ts j = false →
      dueAt ts k < dueAt ts j ∨ (dueAt ts k = dueAt ts j ∧ k ≤ j) := by
  unfold findTrackWithNextEvent at h
  rcases findLoop_post ts 0 none U64MAX with ⟨heq, _⟩ |
      ⟨m, hm, hme, heq, hlt, hbefore, hafter⟩
  · rw [h] at heq
    cases heq
  · rw [h] at heq
    have hkm : k = m := by
      have := heq.symm
      simp at this
      omega
  -- `heq : some k = some (0 + m)`
    subst hkm
    refine ⟨hm, hme, ?_⟩
    intro j hj hje
    rcases Nat.lt_trichotomy j k with hlt' | heq' | hgt'
    · exact Or.inl (hbefore j hlt' hje)
    · subst heq'
      exact Or.inr ⟨rfl, Nat.le_refl _⟩
    · rcases Nat.lt_or_ge (dueAt ts k) (dueAt ts j) with h' | h'
      · exact Or.inl h'
      · have := hafter j hgt' hj hje
        exact Or.inr ⟨by omega, by omega⟩

/-- Completeness: if some non-finished track has a due tick below
`UINT64_MAX`, the scan returns an index.  (A non-finished track whose due
tick equals `UINT64_MAX` is invisible to the strict comparison of the C++
loop.) -/
theorem find_some (ts : List TrackInfo)
    (h : ∃ j, j < ts.length ∧ eotAt ts j = false ∧ dueAt ts j < U64MAX) :
    ∃ k, findTrackWithNextEvent ts = some k := by
  unfold findTrackWithNextEvent
  rcases findLoop_post ts 0 none U64MAX with ⟨heq, hall⟩ | ⟨m, _, _, heq, _⟩
  · obtain ⟨j, hj, hje, hjd⟩ := h
    have := hall j hj hje
    omega
  · exact ⟨0 + m, heq⟩

/-! ## `_processNextEvent` touches only the selected track -/

theorem modTrk_dispatchEvent (p : Player) (i s : Nat) (r : Bool) (d e : Nat) :
    modTrk p (dispatchEvent p i s r d e).1 i := by
  unfold dispatchEvent
  rcases hX : (if s = 255 then handleMetaEvent p i
      else if s = 240 ∨ s = 247 then handleSysexEvent p i
      else if 128 ≤ s ∧ s ≤ 239 then handleMidiEvent p i s r d
      else if 241 ≤ s ∧ s ≤ 254 then
        (setTrack p i { getTrack p i with lastStatusByte := 0 }, [])
      else (p, [])) with ⟨ph, outh⟩
  have hmod : modTrk p ph i := by
    have hx : modTrk p (if s = 255 then handleMetaEvent p i
        else if s = 240 ∨ s = 247 then handleSysexEvent p i
        else if 128 ≤ s ∧ s ≤ 239 then handleMidiEvent p i s r d
        else if 241 ≤ s ∧ s ≤ 254 then
          (setTrack p i { getTrack p i with lastStatusByte := 0 }, [])
        else (p, [])).1 i := by
      split
      · exact (lsKeep_handleMetaEvent p i).1
      · split
        · exact modTrk_handleSysexEvent p i
        · split
          · exact (lsKeep_handleMidiEvent p i s r d).1
          · split
            · exact Or.inr (Or.inr ⟨_, rfl⟩)
            · exact modTrk_refl p i
    rw [hX] at hx
    exact hx
  simp only [hX]
  exact modTrk_trans hmod (lsKeep_scheduleNextDelta ph i e).1

theorem processNextEvent_modTrk (p : Player) (i : Nat)
    (h : findTrackWithNextEvent p.tracks = some i) :
    modTrk p (processNextEvent p).1 i := by
  unfold processNextEvent
  rw [h]
  rcases hU : readU8 p i with ⟨fb, p1⟩
  have hk1 : lsKeep p p1 i := by
    have := lsKeep_readU8 p i
    rw [hU] at this
    exact this
  simp only [hU]
  split
  · exact hk1.1
  · split
    · split
      · exact modTrk_trans hk1.1 (Or.inr (Or.inr ⟨_, rfl⟩))
      · exact modTrk_trans hk1.1 (modTrk_dispatchEvent p1 i _ true fb _)
    · rcases hsp : (if 128 ≤ fb ∧ fb ≤ 239 then
          if (getTrack p1 i).lastStatusByte ≠ fb then
            setTrack p1 i { getTrack p1 i with lastStatusByte := fb }
          else p1
        else if 240 ≤ fb ∧ fb ≤ 247 then
          setTrack p1 i { getTrack p1 i with lastStatusByte := 0 }
        else p1) with p2
      have hmod2 : modTrk p1 p2 i := by
        rw [← hsp]
        split
        · split
          · exact Or.inr (Or.inr ⟨_, rfl⟩)
          · exact modTrk_refl p1 i
        · split
          · exact Or.inr (Or.inr ⟨_, rfl⟩)
          · exact modTrk_refl p1 i
      exact modTrk_trans (modTrk_trans hk1.1 hmod2) (modTrk_dispatchEvent p2 i fb false 0 _)

/-! ## Delivery order of the scheduler -/

theorem find_nil : findTrackWithNextEvent [] = none := rfl

theorem getTrack_eq_of_getElem? {p q : Player} {j : Nat}
    (h : q.tracks[j]? = p.tracks[j]?) : getTrack q j = getTrack p j := by
  simp [getTrack, List.getD_eq_getElem?_getD, h]

theorem eotAt_tracks (p : Player) (j : Nat) :
    eotAt p.tracks j = (getTrack p j).endOfTrackReached := rfl

theorem dueAt_tracks (p : Player) (j : Nat) :
    dueAt p.tracks j = (getTrack p j).nextEventTick := rfl

/-- One scheduler step cannot deliver an earlier `(dueTick, trackIndex)` pair
than the step before it, provided the step did not overflow the selected
track's 64-bit tick counter. -/
theorem sched_step_le (p : Player) (i i' : Nat)
    (h : findTrackWithNextEvent p.tracks = some i)
    (h' : findTrackWithNextEvent (processNextEvent p).1.tracks = some i')
    (hnw : ((processNextEvent p).1.tracks.isEmpty ||
            (getTrack (processNextEvent p).1 i).endOfTrackReached ||
            decide ((getTrack p i).nextEventTick ≤
              (getTrack (processNextEvent p).1 i).nextEventTick)) = true) :
    pairLE ((getTrack p i).nextEventTick, i)
      ((getTrack (processNextEvent p).1 i').nextEventTick, i') := by
  obtain ⟨hilen, hieot, himin⟩ := find_spec p.tracks i h
  obtain ⟨hilen', hieot', _⟩ := find_spec (processNextEvent p).1.tracks i' h'
  have hmod := processNextEvent_modTrk p i h
  have hne : (processNextEvent p).1.tracks ≠ [] := by
    intro hempty
    rw [hempty, find_nil] at h'
    cases h'
  by_cases hii : i' = i
  · subst hii
    have hd : (getTrack p i').nextEventTick ≤
        (getTrack (processNextEvent p).1 i').nextEventTick := by
      rcases Bool.or_eq_true _ _ |>.mp hnw with h1 | h1
      · rcases Bool.or_eq_true _ _ |>.mp h1 with h2 | h2
        · exact absurd (List.isEmpty_iff.mp h2) hne
        · rw [eotAt_tracks] at hieot'
          rw [hieot'] at h2
          cases h2
      · exact of_decide_eq_true h1
    unfold pairLE
    rcases Nat.lt_or_ge ((getTrack p i').nextEventTick)
        ((getTrack (processNextEvent p).1 i').nextEventTick) with h2 | h2
    · exact Or.inl h2
    · exact Or.inr ⟨by omega, Nat.le_refl _⟩
  · have hloc := modTrk_getElem?_ne hmod i' (fun hx => hii hx.symm)
    rcases hloc with hempty | hget
    · exact absurd hempty hne
    · have hgt : getTrack (processNextEvent p).1 i' = getTrack p i' :=
        getTrack_eq_of_getElem? hget
    -- i' is unchanged from `p`; apply minimality of the first selection
      have hlen : (processNextEvent p).1.tracks.length = p.tracks.length := by
        rcases modTrk_length hmod with h1 | h1
        · exact absurd h1 hne
        · exact h1
      have hj : i' < p.tracks.length := by omega
      have hje : eotAt p.tracks i' = false := by
        rw [eotAt_tracks, ← hgt, ← eotAt_tracks]
        exact hieot'
      have hmin := himin i' hj hje
      rw [dueAt_tracks, dueAt_tracks] at hmin
      unfold pairLE
      rw [hgt]
      rcases hmin with h1 | ⟨h1, h2⟩
      · exact Or.inl h1
      · exact Or.inr ⟨h1, by omega⟩

/-- The whole delivery trace is non-decreasing in `(dueTick, trackIndex)`
lexicographic order, as long as no step overflows a tick counter. -/
theorem schedTrace_chain : ∀ (fuel : Nat) (p : Player),
    schedNoWrap p fuel = true → List.Chain' pairLE (schedTrace p fuel) := by
  intro fuel
  induction fuel with
  | zero =>
    intro p _
    simp [schedTrace]
  | succ fuel ih =>
    intro p hnw
    unfold schedTrace
    rcases hf : findTrackWithNextEvent p.tracks with _ | i
    · simp
    · simp only
      unfold schedNoWrap at hnw
      rw [hf] at hnw
      simp only [Bool.and_eq_true] at hnw
      obtain ⟨hc, hrec⟩ := hnw
      rw [List.chain'_cons']
      refine ⟨?_, ih (processNextEvent p).1 hrec⟩
      intro y hy
      match hfuel : fuel with
      | 0 => simp [schedTrace] at hy
      | fuel' + 1 =>
        unfold schedTrace at hy
        rcases hf' : findTrackWithNextEvent (processNextEvent p).1.tracks with _ | i'
        · rw [hf'] at hy
          simp at hy
        · rw [hf'] at hy
          simp only [List.head?_cons, Option.mem_def, Option.some.injEq] at hy
          subst hy
          exact sched_step_le p i i' hf hf' hc

/-! ## The playback-complete notification -/

theorem emitTwoByte_noPC (c ch d1 d2 : Nat) :
    MidiOut.playbackComplete ∉ emitTwoByte c ch d1 d2 := by
  unfold emitTwoByte
  split_ifs <;> simp

theorem emitOneByte_noPC (c ch d1 : Nat) :
    MidiOut.playbackComplete ∉ emitOneByte c ch d1 := by
  unfold emitOneByte
  split_ifs <;> simp

theorem handleMidiEvent_noPC (p : Player) (i s : Nat) (r : Bool) (d : Nat) :
    MidiOut.playbackComplete ∉ (handleMidiEvent p i s r d).2 := by
  unfold handleMidiEvent
  rcases h1 : readU8 p i with ⟨d1, p1⟩
  rcases h2 : readU8 p1 i with ⟨d2, p2⟩
  simp only [h1, h2]
  split
  · split
    · split
      · simp
      · exact emitTwoByte_noPC _ _ _ _
    · split
      · simp
      · split
        · simp
        · exact emitTwoByte_noPC _ _ _ _
  · split
    · split
      · exact emitOneByte_noPC _ _ _
      · split
        · simp
        · exact emitOneByte_noPC _ _ _
    · simp

theorem metaEndOfTrackCore_noPC (p : Player) (i : Nat) :
    MidiOut.playbackComplete ∉ (metaEndOfTrackCore p i).2 := by
  unfold metaEndOfTrackCore
  split <;> simp

theorem metaEndOfTrack_noPC (p : Player) (i length : Nat) :
    MidiOut.playbackComplete ∉ (metaEndOfTrack p i length).2 := by
  unfold metaEndOfTrack
  split
  · exact metaEndOfTrackCore_noPC p i
  · exact metaEndOfTrackCore_noPC p i

theorem metaTempo_noPC (p : Player) (i length dataOff : Nat) :
    MidiOut.playbackComplete ∉ (metaTempo p i length dataOff).2 := by
  unfold metaTempo
  rcases hB : readBytesF p dataOff 3 with ⟨bs, p1⟩
  split
  · simp only [hB]
    split
    · split <;> simp
    · simp
  · simp

theorem metaTimeSignature_noPC (p : Player) (i length dataOff : Nat) :
    MidiOut.playbackComplete ∉ (metaTimeSignature p i length dataOff).2 := by
  unfold metaTimeSignature
  rcases hB : readBytesF p dataOff 4 with ⟨bs, p1⟩
  split
  · simp only [hB]
    split
    · split <;> simp
    · simp
  · simp

theorem metaTrackName_noPC (p : Player) (i length dataOff : Nat) :
    MidiOut.playbackComplete ∉ (metaTrackName p i length dataOff).2 := by
  unfold metaTrackName
  rcases hB : readBytesF p dataOff length with ⟨bs, p1⟩
  split
  · simp only [hB]
    split
    · simp
    · split <;> simp
  · simp

theorem metaDefault_noPC (p : Player) (i length dataOff : Nat) :
    MidiOut.playbackComplete ∉ (metaDefault p i length dataOff).2 := by
  unfold metaDefault
  split <;> simp

theorem handleMetaEvent_noPC (p : Player) (i : Nat) :
    MidiOut.playbackComplete ∉ (handleMetaEvent p i).2 := by
  unfold handleMetaEvent
  rcases hU : readU8 p i with ⟨mt, p1⟩
  simp only [hU]
  split
  · simp
  · rcases hV : readVLQ p1 i with ⟨len, p2⟩
    simp only [hV]
    split
    · simp
    · rcases h3 : (if mt = 47 then metaEndOfTrack p2 i len
          else if mt = 81 then metaTempo p2 i len ((getTrack p2 i).currentOffset)
          else if mt = 88 then metaTimeSignature p2 i len ((getTrack p2 i).currentOffset)
          else if mt = 3 then metaTrackName p2 i len ((getTrack p2 i).currentOffset)
          else metaDefault p2 i len ((getTrack p2 i).currentOffset)) with ⟨p3, out3⟩
      have hno : MidiOut.playbackComplete ∉ out3 := by
        have hx : MidiOut.playbackComplete ∉ (if mt = 47 then metaEndOfTrack p2 i len
            else if mt = 81 then metaTempo p2 i len ((getTrack p2 i).currentOffset)
            else if mt = 88 then metaTimeSignature p2 i len ((getTrack p2 i).currentOffset)
            else if mt = 3 then metaTrackName p2 i len ((getTrack p2 i).currentOffset)
            else metaDefault p2 i len ((getTrack p2 i).currentOffset)).2 := by
          split
          · exact metaEndOfTrack_noPC p2 i len
          · split
            · exact metaTempo_noPC p2 i len _
            · split
              · exact metaTimeSignature_noPC p2 i len _
              · split
                · exact metaTrackName_noPC p2 i len _
                · exact metaDefault_noPC p2 i len _
        rw [h3] at hx
        exact hx
      simp only [h3]
      split <;> exact hno

theorem handleSysexEvent_noPC (p : Player) (i : Nat) :
    MidiOut.playbackComplete ∉ (handleSysexEvent p i).2 := by
  unfold handleSysexEvent
  rcases hV : readVLQ p i with ⟨len, p1⟩
  simp only [hV]
  split
  · simp
  · split <;> simp

theorem dispatchEvent_noPC (p : Player) (i s : Nat) (r : Bool) (d e : Nat) :
    MidiOut.playbackComplete ∉ (dispatchEvent p i s r d e).2 := by
  unfold dispatchEvent
  rcases hX : (if s = 255 then handleMetaEvent p i
      else if s = 240 ∨ s = 247 then handleSysexEvent p i
      else if 128 ≤ s ∧ s ≤ 239 then handleMidiEvent p i s r d
      else if 241 ≤ s ∧ s ≤ 254 then
        (setTrack p i { getTrack p i with lastStatusByte := 0 }, [])
      else (p, [])) with ⟨ph, outh⟩
  have hno : MidiOut.playbackComplete ∉ outh := by
    have hx : MidiOut.playbackComplete ∉ (if s = 255 then handleMetaEvent p i
        else if s = 240 ∨ s = 247 then handleSysexEvent p i
        else if 128 ≤ s ∧ s ≤ 239 then handleMidiEvent p i s r d
        else if 241 ≤ s ∧ s ≤ 254 then
          (setTrack p i { getTrack p i with lastStatusByte := 0 }, [])
        else (p, [])).2 := by
      split
      · exact handleMetaEvent_noPC p i
      · split
        · exact handleSysexEvent_noPC p i
        · split
          · exact handleMidiEvent_noPC p i s r d
          · split
            · simp
            · simp
    rw [hX] at hx
    exact hx
  simp only [hX]
  exact hno

theorem processNextEvent_noPC (p : Player) :
    MidiOut.playbackComplete ∉ (processNextEvent p).2 := by
  unfold processNextEvent
  rcases hf : findTrackWithNextEvent p.tracks with _ | i
  · simp
  · simp only
    rcases hU : readU8 p i with ⟨fb, p1⟩
    simp only [hU]
    split
    · simp
    · split
      · split
        · simp
        · exact dispatchEvent_noPC p1 i _ true fb _
      · exact dispatchEvent_noPC _ i fb false 0 _

/-! ## The `tick()` loop fires the completion notification at most once -/

theorem tickLoop_PC_count : ∀ (fuel : Nat) (p : Player),
    ((tickLoop p fuel).2.count MidiOut.playbackComplete) ≤ 1 := by
  intro fuel
  induction fuel with
  | zero => intro p; simp [tickLoop]
  | succ fuel ih =>
    intro p
    unfold tickLoop
    rcases hf : findTrackWithNextEvent p.tracks with _ | i
    · simp
    · simp only
      split
      · simp
      · rcases hP : processNextEvent p with ⟨p1, out⟩
        have hno : MidiOut.playbackComplete ∉ out := by
          have := processNextEvent_noPC p
          rw [hP] at this
          exact this
        have hz : out.count MidiOut.playbackComplete = 0 :=
          List.count_eq_zero.mpr hno
        simp only [hP]
        split
        · simp [List.count_append, hz]
        · rcases hL : tickLoop p1 fuel with ⟨p2, out2⟩
          have hcount2 : out2.count MidiOut.playbackComplete ≤ 1 := by
            have := ih p1
            rw [hL] at this
            simpa using this
          simp only [hL]
          simpa [List.count_append, hz] using hcount2

theorem tickLoop_succ_eq (p : Player) (fuel : Nat) :
    tickLoop p (fuel + 1) =
      match findTrackWithNextEvent p.tracks with
      | none => (p, [])
      | some i =>
        if p.currentTick < (getTrack p i).nextEventTick then (p, [])
        else
          if (processNextEvent p).1.trackCount ≤ (processNextEvent p).1.finishedTracks then
            (stop (processNextEvent p).1,
             (processNextEvent p).2 ++ [MidiOut.playbackComplete])
          else
            ((tickLoop (processNextEvent p).1 fuel).1,
             (processNextEvent p).2 ++ (tickLoop (processNextEvent p).1 fuel).2) := rfl

theorem tickLoop_PC_stopped : ∀ (fuel : Nat) (p : Player),
    MidiOut.playbackComplete ∈ (tickLoop p fuel).2 →
    (tickLoop p fuel).1.state = PlaybackState.STOPPED ∧
    (tickLoop p fuel).1.fileOpen = false ∧ (tickLoop p fuel).1.tracks = [] := by
  intro fuel
  induction fuel with
  | zero =>
    intro p h
    simp [tickLoop] at h
  | succ fuel ih =>
    intro p h
    rw [tickLoop_succ_eq] at h ⊢
    rcases hf : findTrackWithNextEvent p.tracks with _ | i
    · simp [hf] at h
    · simp only [hf] at h
      dsimp only
      by_cases hdue : p.currentTick < (getTrack p i).nextEventTick
      · rw [if_pos hdue] at h
        simp at h
      · rw [if_neg hdue] at h ⊢
        by_cases hdone : (processNextEvent p).1.trackCount ≤
            (processNextEvent p).1.finishedTracks
        · rw [if_pos hdone]
          exact ⟨rfl, rfl, rfl⟩
        · rw [if_neg hdone] at h ⊢
          have hin : MidiOut.playbackComplete ∈ (tickLoop (processNextEvent p).1 fuel).2 := by
            rcases List.mem_append.mp h with h' | h'
            · exact absurd h' (processNextEvent_noPC p)
            · exact h'
          exact ih _ hin

theorem tick_not_playing (p : Player) (now fuel : Nat)
    (h : ¬ p.state = PlaybackState.PLAYING) : tick p now fuel = (p, []) := by
  unfold tick
  rw [if_neg h]

theorem tick_stopped (p : Player) (now fuel : Nat) : tick (stop p) now fuel = (stop p, []) := by
  apply tick_not_playing
  simp

theorem play_after_stop (p : Player) (now : Nat) : play (stop p) now = stop p := by
  unfold play
  simp

/-! ## Pause / resume time shifting -/

theorem pause_play_shift (p : Player) (tp tr : Nat)
    (hst : p.state = PlaybackState.PLAYING) (hopen : p.fileOpen = true)
    (h1 : tp ≤ tr) (h2 : tr < U64M)
    (h3 : p.playbackStartMicros + (tr - tp) < U64M)
    (h4 : p.lastEventMicros + (tr - tp) < U64M) :
    play (pause p tp) tr =
      { p with playbackStartMicros := p.playbackStartMicros + (tr - tp),
               lastEventMicros := p.lastEventMicros + (tr - tp),
               state := PlaybackState.PLAYING,
               pauseStartMicros := tp } := by
  have hP : pause p tp = { p with state := PlaybackState.PAUSED, pauseStartMicros := tp } := by
    unfold pause
    rw [if_pos hst]
  rw [hP]
  unfold play
  have hd : (tr + U64M - tp % U64M) % U64M = tr - tp := by
    rw [Nat.mod_eq_of_lt (show tp < U64M by omega)]
    have he : tr + U64M - tp = U64M + (tr - tp) := by omega
    rw [he, Nat.add_mod_left, Nat.mod_eq_of_lt (by omega)]
  rw [if_neg (by simp [hopen] :
    ¬ ({ p with state := PlaybackState.PAUSED, pauseStartMicros := tp } : Player).fileOpen = false)]
  rw [if_neg (by simp :
    ¬ ({ p with state := PlaybackState.PAUSED, pauseStartMicros := tp } : Player).state = PlaybackState.STOPPED)]
  rw [if_pos (by simp :
    ({ p with state := PlaybackState.PAUSED, pauseStartMicros := tp } : Player).state = PlaybackState.PAUSED)]
  have hd2 : (p.playbackStartMicros + (tr + U64M - tp % U64M) % U64M) % U64M =
      p.playbackStartMicros + (tr - tp) := by
    rw [hd, Nat.mod_eq_of_lt h3]
  have hd3 : (p.lastEventMicros + (tr + U64M - tp % U64M) % U64M) % U64M =
      p.lastEventMicros + (tr - tp) := by
    rw [hd, Nat.mod_eq_of_lt h4]
  simp [hd2, hd3]

theorem advanceTickTime_shift (p q : Player) (D t : Nat)
    (hl : q.lastEventMicros = p.lastEventMicros + D)
    (hdiv : q.division = p.division) (hus : q.usPerQN = p.usPerQN)
    (hct : q.currentTick = p.currentTick)
    (ho : p.lastEventMicros + D ≤ t) (hb : t < U64M) :
    (advanceTickTime q t).currentTick = (advanceTickTime p (t - D)).currentTick ∧
    (advanceTickTime q t).lastEventMicros =
      (advanceTickTime p (t - D)).lastEventMicros + D := by
  unfold advanceTickTime
  have hq : q.lastEventMicros ≤ t := by omega
  have hp : p.lastEventMicros ≤ t - D := by omega
  rw [if_pos hq, if_pos hp]
  have hdelta : t - q.lastEventMicros = t - D - p.lastEventMicros := by omega
  rw [hdelta, hdiv, hus, hct, hl]
  set dv := if p.division = 0 then 96 else p.division with hdv
  have hdvpos : 0 < dv := by
    rw [hdv]
    split <;> omega
  by_cases hup : 0 < p.usPerQN
  · rw [if_pos hup, if_pos hup]
    set delta := t - D - p.lastEventMicros with hdel
    set ticks := delta * dv / p.usPerQN with hticks
    by_cases htp : 0 < ticks
    · rw [if_pos htp, if_pos htp]
      have hinc : ticks * p.usPerQN / dv ≤ delta := by
        have h5 : ticks * p.usPerQN ≤ delta * dv := by
          have := Nat.div_mul_le_self (delta * dv) p.usPerQN
          calc ticks * p.usPerQN = delta * dv / p.usPerQN * p.usPerQN := by rw [hticks]
            _ ≤ delta * dv := Nat.div_mul_le_self _ _
        calc ticks * p.usPerQN / dv ≤ delta * dv / dv := Nat.div_le_div_right h5
          _ = delta := Nat.mul_div_cancel delta hdvpos
      have hmq : p.lastEventMicros + D + ticks * p.usPerQN / dv < U64M := by omega
      have hmp : p.lastEventMicros + ticks * p.usPerQN / dv < U64M := by omega
      constructor
      · simp
      · simp only
        rw [Nat.mod_eq_of_lt hmq, Nat.mod_eq_of_lt hmp]
        omega
    · rw [if_neg htp, if_neg htp]
      exact ⟨rfl, by simp⟩
  · rw [if_neg hup, if_neg hup]
    exact ⟨rfl, by simp⟩

/-! ## Miscellaneous helpers for the concrete decode paths -/

theorem getTrack_tracksEq {p q : Player} (h : q.tracks = p.tracks) (i : Nat) :
    getTrack q i = getTrack p i := by
  simp [getTrack, h]

theorem getTrack_usPerQN (p : Player) (v i : Nat) :
    getTrack { p with usPerQN := v } i = getTrack p i := rfl

theorem lsKeep_ls {p q : Player} {i : Nat} (h : lsKeep p q i) (hne : q.tracks ≠ []) :
    (getTrack q i).lastStatusByte = (getTrack p i).lastStatusByte := by
  rcases h.2 with h' | h'
  · exact absurd h' hne
  · exact h'

theorem scheduleNextDelta_nil {q : Player} (i e : Nat) (h : q.tracks = []) :
    (scheduleNextDelta q i e).tracks = [] :=
  modTrk_nil (lsKeep_scheduleNextDelta q i e).1 h

theorem dispatchEvent_eq (p : Player) (i s : Nat) (r : Bool) (d e : Nat) :
    dispatchEvent p i s r d e =
      (scheduleNextDelta (if s = 255 then handleMetaEvent p i
        else if s = 240 ∨ s = 247 then handleSysexEvent p i
        else if 128 ≤ s ∧ s ≤ 239 then handleMidiEvent p i s r d
        else if 241 ≤ s ∧ s ≤ 254 then
          (setTrack p i { getTrack p i with lastStatusByte := 0 }, [])
        else (p, [])).1 i e,
       (if s = 255 then handleMetaEvent p i
        else if s = 240 ∨ s = 247 then handleSysexEvent p i
        else if 128 ≤ s ∧ s ≤ 239 then handleMidiEvent p i s r d
        else if 241 ≤ s ∧ s ≤ 254 then
          (setTrack p i { getTrack p i with lastStatusByte := 0 }, [])
        else (p, [])).2) := rfl

theorem drop3_of_getElem? {l : List Nat} {off b0 b1 b2 : Nat}
    (h0 : l[off]? = some b0) (h1 : l[off + 1]? = some b1) (h2 : l[off + 2]? = some b2) :
    (l.drop off).take 3 = [b0, b1, b2] := by
  rw [drop_of_getElem? h0, drop_of_getElem? h1, show off + 1 + 1 = off + 2 by omega,
    drop_of_getElem? h2]
  rfl

theorem readBytesF_three (p : Player) (off b0 b1 b2 : Nat) (h : p.fileOpen = true)
    (h0 : p.fileBytes[off]? = some b0) (h1 : p.fileBytes[off + 1]? = some b1)
    (h2 : p.fileBytes[off + 2]? = some b2) :
    readBytesF p off 3 = ([b0 % 256, b1 % 256, b2 % 256], p) := by
  have hlt : off < p.fileBytes.length := (List.getElem?_eq_some_iff.mp h0).1
  simp [readBytesF, h, Nat.not_lt.mpr (Nat.le_of_lt hlt), drop3_of_getElem? h0 h1 h2]

theorem dispatchEvent_fst_midi (p : Player) (i s : Nat) (r : Bool) (d e : Nat)
    (h1 : 128 ≤ s) (h2 : s ≤ 239) :
    (dispatchEvent p i s r d e).1 = scheduleNextDelta (handleMidiEvent p i s r d).1 i e := by
  unfold dispatchEvent
  rw [if_neg (show ¬ s = 255 by omega), if_neg (show ¬ (s = 240 ∨ s = 247) by omega),
      if_pos (show 128 ≤ s ∧ s ≤ 239 from ⟨h1, h2⟩)]

theorem dispatchEvent_fst_meta (p : Player) (i : Nat) (r : Bool) (d e : Nat) :
    (dispatchEvent p i 255 r d e).1 = scheduleNextDelta (handleMetaEvent p i).1 i e := by
  unfold dispatchEvent
  rw [if_pos (show (255 : Nat) = 255 from rfl)]

theorem dispatchEvent_fst_sysex (p : Player) (i s : Nat) (r : Bool) (d e : Nat)
    (h : s = 240 ∨ s = 247) :
    (dispatchEvent p i s r d e).1 = scheduleNextDelta (handleSysexEvent p i).1 i e := by
  unfold dispatchEvent
  rw [if_neg (show ¬ s = 255 by omega), if_pos h]

theorem dispatchEvent_fst_sys (p : Player) (i s : Nat) (r : Bool) (d e : Nat)
    (h1 : 241 ≤ s) (h2 : s ≤ 254) (h3 : ¬ s = 247) :
    (dispatchEvent p i s r d e).1 =
      scheduleNextDelta (setTrack p i { getTrack p i with lastStatusByte := 0 }) i e := by
  unfold dispatchEvent
  rw [if_neg (show ¬ s = 255 by omega), if_neg (show ¬ (s = 240 ∨ s = 247) by omega),
      if_neg (show ¬ (128 ≤ s ∧ s ≤ 239) by omega),
      if_pos (show 241 ≤ s ∧ s ≤ 254 from ⟨h1, h2⟩)]

/-! ## Concrete players used by witnesses and counterexamples -/

/-- Two-track player whose first track's next event is a Note-On followed by a
delta-time VLQ of five bytes (four continuation bytes); the second track is
alive with a later due tick. -/
def exC1 : Player :=
  { fileBytes := [144, 60, 100, 129, 128, 128, 128, 0]
    fileOpen := true
    state := PlaybackState.PLAYING
    trackCount := 2
    tracks := [{ startOffset := 0, currentOffset := 0, nextEventTick := 0 },
               { startOffset := 8, currentOffset := 8, nextEventTick := 1000 }] }

/-- `exC1` with track 0 positioned directly on the oversized delta VLQ. -/
def exC1v : Player :=
  { fileBytes := [144, 60, 100, 129, 128, 128, 128, 0]
    fileOpen := true
    state := PlaybackState.PLAYING
    trackCount := 2
    tracks := [{ startOffset := 0, currentOffset := 3, nextEventTick := 0 },
               { startOffset := 8, currentOffset := 8, nextEventTick := 1000 }] }

/-- Single-track player whose next event is an immediate End-of-Track meta. -/
def exC2 : Player :=
  { fileBytes := [255, 47, 0]
    fileOpen := true
    state := PlaybackState.PLAYING
    trackCount := 1
    tracks := [{ startOffset := 0, currentOffset := 0, nextEventTick := 0 }] }

/-- Single-track player whose parse position is at end-of-file, so the next
fixed-width read is truncated. -/
def exC3 : Player :=
  { fileBytes := [144]
    fileOpen := true
    state := PlaybackState.PLAYING
    trackCount := 1
    tracks := [{ startOffset := 0, currentOffset := 1, nextEventTick := 0 }] }

/-- Two tracks tied at due tick 5; track 0 carries two events separated by a
delta of 0, so it delivers twice at tick 5 before track 1 gets its turn. -/
def exC4 : Player :=
  { fileBytes := [144, 60, 100, 0, 144, 62, 100, 127, 128, 60, 64, 0]
    fileOpen := true
    state := PlaybackState.PLAYING
    trackCount := 2
    tracks := [{ startOffset := 0, currentOffset := 0, nextEventTick := 5 },
               { startOffset := 8, currentOffset := 8, nextEventTick := 5 }] }

/-- Player for the Note-On-velocity-0 witness: note 60, velocity 0. -/
def exC5 : Player :=
  { fileBytes := [60, 0]
    fileOpen := true
    state := PlaybackState.PLAYING
    trackCount := 1
    tracks := [{ startOffset := 0, currentOffset := 0, nextEventTick := 0 }] }

/-- Player whose selected track starts with a data byte while no running
status is active. -/
def exC7 : Player :=
  { fileBytes := [60, 0, 144, 60, 100, 0]
    fileOpen := true
    state := PlaybackState.PLAYING
    trackCount := 2
    tracks := [{ startOffset := 0, currentOffset := 0, nextEventTick := 0 },
               { startOffset := 2, currentOffset := 2, nextEventTick := 50 }] }

/-- Player positioned on a tempo meta event payload `51 03 07 A1 20`
(500000 µs per quarter note), and one positioned on a zero tempo. -/
def exC8 : Player :=
  { fileBytes := [81, 3, 7, 161, 32, 0]
    fileOpen := true
    state := PlaybackState.PLAYING
    trackCount := 1
    tracks := [{ startOffset := 0, currentOffset := 0, nextEventTick := 0 }] }

/-- As `exC8` but with a zero 24-bit tempo payload. -/
def exC8z : Player :=
  { fileBytes := [81, 3, 0, 0, 0, 0]
    fileOpen := true
    state := PlaybackState.PLAYING
    trackCount := 1
    tracks := [{ startOffset := 0, currentOffset := 0, nextEventTick := 0 }] }

/-- A playing player with non-trivial timing state, for the pause/resume
witness. -/
def exC9 : Player :=
  { fileBytes := [144, 60, 100, 0]
    fileOpen := true
    state := PlaybackState.PLAYING
    trackCount := 1
    usPerQN := 500000
    division := 96
    currentTick := 7
    playbackStartMicros := 1000
    lastEventMicros := 2000
    tracks := [{ startOffset := 0, currentOffset := 0, nextEventTick := 9 }] }

/-- A track whose next event carries a fresh Note-On status byte (0x90), for
the running-status update witness. -/
def exC6a : Player :=
  { fileBytes := [144, 60, 100, 0]
    fileOpen := true
    state := PlaybackState.PLAYING
    trackCount := 1
    tracks := [{ startOffset := 0, currentOffset := 0, nextEventTick := 0 }] }

/-- A track whose next event is a system-common status byte (0xF6), which
clears the running-status memory. -/
def exC6b : Player :=
  { fileBytes := [246, 0]
    fileOpen := true
    state := PlaybackState.PLAYING
    trackCount := 1
    tracks := [{ startOffset := 0, currentOffset := 0, nextEventTick := 0,
                 lastStatusByte := 144 }] }

/-- A track whose next event is a meta event (0xFF), which leaves the
running-status memory untouched. -/
def exC6c : Player :=
  { fileBytes := [255, 1, 0, 0]
    fileOpen := true
    state := PlaybackState.PLAYING
    trackCount := 1
    tracks := [{ startOffset := 0, currentOffset := 0, nextEventTick := 0,
                 lastStatusByte := 144 }] }

/-! ## The claims -/

/-- C10: for every playback state, `getCurrentTick()` returns the internal
64-bit tick counter truncated to its low 32 bits (the value modulo 2^32): the
reported position wraps around for internal ticks at or beyond 2^32 rather
than saturating or failing. -/
theorem claim_C10 :
    (∀ p : Player, getCurrentTick p = p.currentTick % U32M) ∧
    (∀ p : Player, getCurrentTick p < U32M) ∧
    (∀ (p : Player) (n : Nat), p.currentTick = U32M + n → n < U32M →
      getCurrentTick p = n) := by
  refine ⟨fun p => rfl, fun p => Nat.mod_lt _ (by unfold U32M; omega), ?_⟩
  intro p n hc hn
  unfold getCurrentTick
  rw [hc, Nat.add_mod_left, Nat.mod_eq_of_lt hn]

/-- Witness for C10 at a concrete wrapped tick counter. -/
theorem claim_C10_witness :
    getCurrentTick { currentTick := U32M + 5 } = 5 :=
  claim_C10.2.2 { currentTick := U32M + 5 } 5 rfl (by unfold U32M; omega)

/-- C3 (amended): a storage-level failure during playback — a seek past the
end of the file or a truncated fixed-width read — calls `stop()`: the state
becomes STOPPED (the `PlaybackState` enum has no ERROR constructor), the file
is closed and the session cleared; `tick()` then does nothing and `play()`
refuses to start because no file is open. -/
theorem claim_C3 :
    (∀ (p : Player) (off len : Nat), p.fileOpen = true → p.fileBytes.length < off →
      readBytesF p off len = ([], stop p)) ∧
    (∀ (p : Player) (i : Nat), p.fileOpen = true →
      p.fileBytes.length ≤ (getTrack p i).currentOffset → readU8 p i = (0, stop p)) ∧
    (∀ p : Player, (stop p).state = PlaybackState.STOPPED ∧ (stop p).fileOpen = false ∧
      (stop p).tracks = []) ∧
    (∀ (p : Player) (now fuel : Nat), tick (stop p) now fuel = (stop p, [])) ∧
    (∀ (p : Player) (now : Nat), play (stop p) now = stop p) ∧
    (∀ s : PlaybackState,
      s = PlaybackState.STOPPED ∨ s = PlaybackState.PLAYING ∨ s = PlaybackState.PAUSED) := by
  refine ⟨readBytesF_seekFail, readU8_eof, fun p => ⟨rfl, rfl, rfl⟩,
    fun p now fuel => tick_stopped p now fuel, fun p now => play_after_stop p now, ?_⟩
  intro s
  cases s
  · exact Or.inl rfl
  · exact Or.inr (Or.inl rfl)
  · exact Or.inr (Or.inr rfl)

/-- Witness for C3: the truncated read on `exC3` stops the player, after
which `tick()` and `play()` are inert. -/
theorem claim_C3_witness :
    readBytesF exC3 2 1 = ([], stop exC3) ∧ readU8 exC3 0 = (0, stop exC3) ∧
    tick (stop exC3) 0 5 = (stop exC3, []) ∧ play (stop exC3) 0 = stop exC3 :=
  ⟨claim_C3.1 exC3 2 1 rfl (by decide), claim_C3.2.1 exC3 0 rfl (by decide),
   claim_C3.2.2.2.1 exC3 0 5, claim_C3.2.2.2.2.1 exC3 0⟩

/-- Counterexample for C3 as stated: after a truncated fixed-width read the
player's state is STOPPED — the same state as an idle player — and the whole
session is torn down; there is no ERROR state for it to enter, and no
distinct ERROR-like configuration is kept until `load()`/`stop()`. -/
theorem claim_C3_counterexample :
    (processNextEvent exC3).1.state = PlaybackState.STOPPED ∧
    (processNextEvent exC3).1.fileOpen = false ∧
    (processNextEvent exC3).1.tracks = [] ∧
    (processNextEvent exC3).2 = [] ∧
    (processNextEvent exC3).1 = stop exC3 := by
  refine ⟨?_, ?_, ?_, ?_, ?_⟩ <;> decide

/-- C1 (amended): a delta-time VLQ that would need more than 4 bytes (its
first four bytes all carry the continuation bit) makes
`_readVariableLengthQuantity` call `stop()`: the WHOLE session ends — state
STOPPED, file closed, every track cleared — rather than only that track
being marked finished. -/
theorem claim_C1 (p : Player) (i : Nat) (hopen : p.fileOpen = true)
    (hi : i < p.tracks.length)
    (hk : ∀ k, k < 4 →
      ∃ b, p.fileBytes[(getTrack p i).currentOffset + k]? = some b ∧ 128 ≤ b % 256) :
    (readVLQ p i).2 = stop p ∧ (stop p).state = PlaybackState.STOPPED ∧
    (stop p).tracks = [] ∧ (stop p).fileOpen = false ∧
    ∀ now fuel, tick (stop p) now fuel = (stop p, []) :=
  ⟨readVLQ_tooLong p i hi hopen hk, rfl, rfl, rfl, fun now fuel => tick_stopped p now fuel⟩

/-- Witness for C1 on `exC1v` (track 0 positioned on the oversized VLQ). -/
theorem claim_C1_witness : (readVLQ exC1v 0).2 = stop exC1v :=
  (claim_C1 exC1v 0 rfl (by decide) (by
    intro k hk
    interval_cases k
    · exact ⟨129, rfl, by decide⟩
    · exact ⟨128, rfl, by decide⟩
    · exact ⟨128, rfl, by decide⟩
    · exact ⟨128, rfl, by decide⟩)).1

/-- Counterexample for C1 as stated: decoding track 0's oversized delta VLQ
(4 continuation bytes, 5 bytes total) terminates the whole playback session:
the state is STOPPED, the file closed, and ALL tracks — including the live
track 1 at due tick 1000 — are discarded, so no other track continues. -/
theorem claim_C1_counterexample :
    (processNextEvent exC1).1.state = PlaybackState.STOPPED ∧
    (processNextEvent exC1).1.tracks = [] ∧
    (processNextEvent exC1).1.fileOpen = false ∧
    (processNextEvent exC1).2 = [MidiOut.noteOn 0 60 100] := by
  refine ⟨?_, ?_, ?_, ?_⟩ <;> decide

/-- C4 (amended): the scheduler's selection returns a non-finished track of
minimal due tick, ties to the lowest index — provided some non-finished
track has a due tick below `UINT64_MAX` (a track whose due tick equals
`UINT64_MAX` is invisible to the strict comparison).  Consequently the whole
delivery trace is non-decreasing in `(dueTick, trackIndex)` lexicographic
order (equal due ticks give NON-decreasing, not strictly increasing, track
indices, because one track can deliver several delta-0 events at one tick),
as long as no step overflows the 64-bit tick counter. -/
theorem claim_C4 :
    (∀ (ts : List TrackInfo) (k : Nat), findTrackWithNextEvent ts = some k →
      k < ts.length ∧ eotAt ts k = false ∧
      ∀ j, j < ts.length → eotAt ts j = false →
        dueAt ts k < dueAt ts j ∨ (dueAt ts k = dueAt ts j ∧ k ≤ j)) ∧
    (∀ ts : List TrackInfo,
      (∃ j, j < ts.length ∧ eotAt ts j = false ∧ dueAt ts j < U64MAX) →
      ∃ k, findTrackWithNextEvent ts = some k) ∧
    (∀ (fuel : Nat) (p : Player), schedNoWrap p fuel = true →
      List.Chain' pairLE (schedTrace p fuel)) :=
  ⟨find_spec, find_some, schedTrace_chain⟩

/-- Witness for C4 on the two-track tie `exC4`. -/
theorem claim_C4_witness :
    (0 < exC4.tracks.length ∧ eotAt exC4.tracks 0 = false ∧
      ∀ j, j < exC4.tracks.length → eotAt exC4.tracks j = false →
        dueAt exC4.tracks 0 < dueAt exC4.tracks j ∨
        (dueAt exC4.tracks 0 = dueAt exC4.tracks j ∧ 0 ≤ j)) ∧
    (∃ k, findTrackWithNextEvent exC4.tracks = some k) ∧
    List.Chain' pairLE (schedTrace exC4 3) :=
  ⟨claim_C4.1 exC4.tracks 0 (by decide),
   claim_C4.2.1 exC4.tracks ⟨0, by decide, by decide, by decide⟩,
   claim_C4.2.2 3 exC4 (by decide)⟩

/-- Counterexample for C4 as stated: (1) a set with one non-finished track at
due tick `UINT64_MAX` makes the selection return none (`-1`), not a minimal
non-finished track; (2) on `exC4` two tracks are tied at tick 5 and the
delivery trace is `[(5,0), (5,0), (5,1)]` — at equal due tick the delivered
track index repeats (0, 0), so it is NOT strictly increasing. -/
theorem claim_C4_counterexample :
    findTrackWithNextEvent [({ nextEventTick := U64MAX } : TrackInfo)] = none ∧
    schedTrace exC4 3 = [(5, 0), (5, 0), (5, 1)] := by
  refine ⟨?_, ?_⟩ <;> decide

/-- C2 (amended): when every track has become finished during a playback
step, the completion callback fires and `stop()` runs: the state becomes
STOPPED (the `PlaybackState` enum has no FINISHED constructor) with the
session cleared; the notification fires at most once per `tick()` call and,
once fired, the player is STOPPED so no later `tick()` can fire it again —
exactly once per playback session. -/
theorem claim_C2 :
    (∀ (p : Player) (now fuel : Nat),
      ((tick p now fuel).2.count MidiOut.playbackComplete) ≤ 1) ∧
    (∀ (p : Player) (now fuel : Nat), MidiOut.playbackComplete ∈ (tick p now fuel).2 →
      (tick p now fuel).1.state = PlaybackState.STOPPED ∧
      (tick p now fuel).1.tracks = [] ∧
      ∀ now' fuel', tick (tick p now fuel).1 now' fuel' = ((tick p now fuel).1, [])) ∧
    (∀ (p : Player) (fuel i : Nat), findTrackWithNextEvent p.tracks = some i →
      ¬ p.currentTick < (getTrack p i).nextEventTick →
      (processNextEvent p).1.trackCount ≤ (processNextEvent p).1.finishedTracks →
      MidiOut.playbackComplete ∈ (tickLoop p (fuel + 1)).2 ∧
      (tickLoop p (fuel + 1)).1 = stop (processNextEvent p).1) ∧
    (∀ s : PlaybackState,
      s = PlaybackState.STOPPED ∨ s = PlaybackState.PLAYING ∨ s = PlaybackState.PAUSED) := by
  refine ⟨?_, ?_, ?_, ?_⟩
  · intro p now fuel
    unfold tick
    split
    · exact tickLoop_PC_count fuel _
    · simp
  · intro p now fuel h
    unfold tick at h ⊢
    split at h
    · next hpl =>
      rw [if_pos hpl]
      obtain ⟨h1, h2, h3⟩ := tickLoop_PC_stopped fuel _ h
      refine ⟨h1, h3, ?_⟩
      intro now' fuel'
      apply tick_not_playing
      rw [h1]
      intro hx
      cases hx
    · simp at h
  · intro p fuel i hf hdue hdone
    rw [tickLoop_succ_eq]
    simp only [hf]
    rw [if_neg hdue, if_pos hdone]
    exact ⟨by simp, rfl⟩
  · intro s
    cases s
    · exact Or.inl rfl
    · exact Or.inr (Or.inl rfl)
    · exact Or.inr (Or.inr rfl)

/-- Witness for C2 on `exC2`: the single track reaches End-of-Track, the
completion callback fires, and the loop result is the stopped player. -/
theorem claim_C2_witness :
    (MidiOut.playbackComplete ∈ (tickLoop exC2 2).2 ∧
      (tickLoop exC2 2).1 = stop (processNextEvent exC2).1) ∧
    ((tick exC2 0 2).1.state = PlaybackState.STOPPED ∧
      (tick exC2 0 2).1.tracks = [] ∧
      ∀ now' fuel', tick (tick exC2 0 2).1 now' fuel' = ((tick exC2 0 2).1, [])) :=
  ⟨claim_C2.2.2.1 exC2 1 0 (by decide) (by decide) (by decide),
   claim_C2.2.1 exC2 0 2 (by decide)⟩

/-- Counterexample for C2 as stated: after the completion step the state is
STOPPED — the same constructor as the idle state, with the session cleared —
not a distinct FINISHED state (which does not exist in `PlaybackState`). -/
theorem claim_C2_counterexample :
    (tick exC2 0 2).1.state = PlaybackState.STOPPED ∧
    (tick exC2 0 2).1.tracks = [] ∧
    (tick exC2 0 2).1.fileOpen = false ∧
    (tick exC2 0 2).2 = [MidiOut.endOfTrack 0, MidiOut.playbackComplete] := by
  refine ⟨?_, ?_, ?_, ?_⟩ <;> decide

/-- C5: a decoded channel-voice Note-On (status nibble 0x90) whose velocity
byte is 0 is delivered as a NoteOff with velocity 0 on the same channel and
note, and the NoteOn callback is not invoked — both with a fresh status byte
and under running status. -/
theorem claim_C5 (p : Player) (i ch n : Nat) (hopen : p.fileOpen = true)
    (hi : i < p.tracks.length) (hch : ch < 16) (hn : n < 128) :
    (p.fileBytes[(getTrack p i).currentOffset]? = some n →
     p.fileBytes[(getTrack p i).currentOffset + 1]? = some 0 →
     handleMidiEvent p i (144 + ch) false 0 =
       (setOffset p i ((getTrack p i).currentOffset + 2), [MidiOut.noteOff ch n 0])) ∧
    (p.fileBytes[(getTrack p i).currentOffset]? = some 0 →
     handleMidiEvent p i (144 + ch) true n =
       (setOffset p i ((getTrack p i).currentOffset + 1), [MidiOut.noteOff ch n 0])) ∧
    (∀ c' n' v', MidiOut.noteOn c' n' v' ∉ ([MidiOut.noteOff ch n 0] : List MidiOut)) := by
  have hch16 : (144 + ch) % 16 = ch := by omega
  have hcmd : 144 + ch - (144 + ch) % 16 = 144 := by omega
  refine ⟨?_, ?_, ?_⟩
  · intro hb1 hb2
    have h1 : readU8 p i = (n, setOffset p i ((getTrack p i).currentOffset + 1)) := by
      rw [readU8_success p i n hopen hb1, Nat.mod_eq_of_lt (show n < 256 by omega)]
    have hoff1 : (getTrack (setOffset p i ((getTrack p i).currentOffset + 1)) i).currentOffset =
        (getTrack p i).currentOffset + 1 := by
      rw [getTrack_setOffset_self p i hi]
    have h2 : readU8 (setOffset p i ((getTrack p i).currentOffset + 1)) i =
        (0, setOffset p i ((getTrack p i).currentOffset + 2)) := by
      have hx := readU8_success (setOffset p i ((getTrack p i).currentOffset + 1)) i 0
        (by simp [hopen]) (by rw [hoff1]; simpa using hb2)
      rw [hx, hoff1, setOffset_setOffset]
    unfold handleMidiEvent
    simp only [hcmd, hch16, h1, h2]
    rw [if_pos (by norm_num)]
    simp [hopen, emitTwoByte]
  · intro hb1
    have h1 : readU8 p i = (0, setOffset p i ((getTrack p i).currentOffset + 1)) := by
      rw [readU8_success p i 0 hopen hb1]
    unfold handleMidiEvent
    simp only [hcmd, hch16, h1]
    rw [if_pos (by norm_num)]
    simp [hopen, emitTwoByte]
  · intro c' n' v'
    simp

/-- Witness for C5 on `exC5` (channel 3, note 60, velocity 0). -/
theorem claim_C5_witness :
    handleMidiEvent exC5 0 147 false 0 = (setOffset exC5 0 2, [MidiOut.noteOff 3 60 0]) :=
  (claim_C5 exC5 0 3 60 rfl (by decide) (by decide) (by decide)).1 (by decide) (by decide)

/-- C7: when the selected track's next event begins with a data byte
(< 0x80) while its running-status memory is 0, `_processNextEvent` fails
track-locally: only that track is marked finished (its offset advanced past
the read byte, `_finishedTracks` incremented), every other track is
untouched, no callback fires, and the session stays alive in its current
state with the file open. -/
theorem claim_C7 (p : Player) (i b : Nat)
    (hf : findTrackWithNextEvent p.tracks = some i) (hopen : p.fileOpen = true)
    (hb : p.fileBytes[(getTrack p i).currentOffset]? = some b) (hlow : b < 128)
    (hls : (getTrack p i).lastStatusByte = 0) :
    processNextEvent p =
      ({ setTrack p i { getTrack p i with
            currentOffset := (getTrack p i).currentOffset + 1,
            endOfTrackReached := true } with
          finishedTracks := (p.finishedTracks + 1) % 256 }, []) ∧
    (∀ j, j ≠ i → (processNextEvent p).1.tracks[j]? = p.tracks[j]?) ∧
    (processNextEvent p).1.state = p.state ∧
    (processNextEvent p).1.fileOpen = true ∧
    (processNextEvent p).1.currentTick = p.currentTick := by
  obtain ⟨hi, hieot, _⟩ := find_spec p.tracks i hf
  have h1 : readU8 p i = (b, setOffset p i ((getTrack p i).currentOffset + 1)) := by
    rw [readU8_success p i b hopen hb, Nat.mod_eq_of_lt (show b < 256 by omega)]
  have hlso : (getTrack (setOffset p i ((getTrack p i).currentOffset + 1)) i).lastStatusByte = 0 := by
    rw [getTrack_setOffset_self p i hi]
    exact hls
  have hmain : processNextEvent p =
      ({ setTrack p i { getTrack p i with
            currentOffset := (getTrack p i).currentOffset + 1,
            endOfTrackReached := true } with
          finishedTracks := (p.finishedTracks + 1) % 256 }, []) := by
    unfold processNextEvent
    rw [hf]
    simp only [h1]
    rw [if_neg (by simp [hopen])]
    rw [if_pos hlow]
    rw [if_pos (Or.inl hlso)]
    rw [getTrack_setOffset_self p i hi, setTrack_setOffset]
    rfl
  have htr : (processNextEvent p).1.tracks =
      p.tracks.set i { getTrack p i with
        currentOffset := (getTrack p i).currentOffset + 1,
        endOfTrackReached := true } := by
    rw [hmain]
    rfl
  refine ⟨hmain, ?_, ?_, ?_, ?_⟩
  · intro j hj
    rw [htr]
    exact List.getElem?_set_ne (fun hx => hj hx.symm)
  · rw [hmain]
    rfl
  · rw [hmain]
    exact hopen
  · rw [hmain]
    rfl

/-- Witness for C7 on `exC7`: track 0's data byte 60 with no running status
finishes only track 0; track 1 is untouched and the session is alive. -/
theorem claim_C7_witness :
    processNextEvent exC7 =
      ({ setTrack exC7 0 { getTrack exC7 0 with
            currentOffset := 1, endOfTrackReached := true } with
          finishedTracks := 1 }, []) ∧
    (processNextEvent exC7).1.tracks[1]? = exC7.tracks[1]? ∧
    (processNextEvent exC7).1.state = exC7.state ∧
    (processNextEvent exC7).1.fileOpen = true :=
  ⟨(claim_C7 exC7 0 60 (by decide) rfl (by decide) (by decide) (by decide)).1,
   (claim_C7 exC7 0 60 (by decide) rfl (by decide) (by decide) (by decide)).2.1 1 (by decide),
   (claim_C7 exC7 0 60 (by decide) rfl (by decide) (by decide) (by decide)).2.2.1,
   (claim_C7 exC7 0 60 (by decide) rfl (by decide) (by decide) (by decide)).2.2.2.1⟩

/-- C8: a tempo meta event (type 0x51) of declared length 3 whose 24-bit
big-endian payload is 0 is ignored — the session tempo keeps its prior value
and no callback fires; a nonzero payload sets the session tempo to that value
and invokes the TempoChange callback with it. -/
theorem claim_C8 (p : Player) (i b0 b1 b2 : Nat) (hopen : p.fileOpen = true)
    (hi : i < p.tracks.length)
    (h0 : p.fileBytes[(getTrack p i).currentOffset]? = some 81)
    (h1 : p.fileBytes[(getTrack p i).currentOffset + 1]? = some 3)
    (h2 : p.fileBytes[(getTrack p i).currentOffset + 2]? = some b0)
    (h3 : p.fileBytes[(getTrack p i).currentOffset + 3]? = some b1)
    (h4 : p.fileBytes[(getTrack p i).currentOffset + 4]? = some b2) :
    (b0 % 256 * 65536 + b1 % 256 * 256 + b2 % 256 = 0 →
      (handleMetaEvent p i).1.usPerQN = p.usPerQN ∧ (handleMetaEvent p i).2 = []) ∧
    (b0 % 256 * 65536 + b1 % 256 * 256 + b2 % 256 ≠ 0 →
      (handleMetaEvent p i).1.usPerQN = b0 % 256 * 65536 + b1 % 256 * 256 + b2 % 256 ∧
      (handleMetaEvent p i).2 =
        [MidiOut.tempoChange (b0 % 256 * 65536 + b1 % 256 * 256 + b2 % 256)]) := by
  have hU : readU8 p i = (81, setOffset p i ((getTrack p i).currentOffset + 1)) := by
    rw [readU8_success p i 81 hopen h0]
  have hoff1 : (getTrack (setOffset p i ((getTrack p i).currentOffset + 1)) i).currentOffset =
      (getTrack p i).currentOffset + 1 := by
    rw [getTrack_setOffset_self p i hi]
  have hV : readVLQ (setOffset p i ((getTrack p i).currentOffset + 1)) i =
      (3, setOffset p i ((getTrack p i).currentOffset + 2)) := by
    have hx := readVLQ_single (setOffset p i ((getTrack p i).currentOffset + 1)) i 3
      (by simp [hopen]) (by rw [hoff1]; simpa using h1) (by norm_num)
    rw [hx, hoff1, setOffset_setOffset]
  have hoff2 : (getTrack (setOffset p i ((getTrack p i).currentOffset + 2)) i).currentOffset =
      (getTrack p i).currentOffset + 2 := by
    rw [getTrack_setOffset_self p i hi]
  have hB : readBytesF (setOffset p i ((getTrack p i).currentOffset + 2))
      ((getTrack p i).currentOffset + 2) 3 =
      ([b0 % 256, b1 % 256, b2 % 256], setOffset p i ((getTrack p i).currentOffset + 2)) := by
    apply readBytesF_three _ _ b0 b1 b2 (by simp [hopen])
    · simpa using h2
    · simpa [show (getTrack p i).currentOffset + 2 + 1 = (getTrack p i).currentOffset + 3 by omega]
        using h3
    · simpa [show (getTrack p i).currentOffset + 2 + 2 = (getTrack p i).currentOffset + 4 by omega]
        using h4
  have hmeta : handleMetaEvent p i =
      metaTempo (setOffset p i ((getTrack p i).currentOffset + 2)) i 3
        ((getTrack p i).currentOffset + 2) := by
    unfold handleMetaEvent
    simp only [hU, hV]
    rw [if_neg (by simp [hopen]), if_neg (by simp [hopen]), hoff2]
    simp only [show ((81 : Nat) = 47) = False by norm_num, if_false, if_true,
      eq_self_iff_true]
    rcases hT : metaTempo (setOffset p i ((getTrack p i).currentOffset + 2)) i 3
        ((getTrack p i).currentOffset + 2) with ⟨p3, out3⟩
    simp only [hT]
    have hsk : ¬ (getTrack p3 i).currentOffset < (getTrack p i).currentOffset + 2 + 3 := by
      have hp3 : p3 = (metaTempo (setOffset p i ((getTrack p i).currentOffset + 2)) i 3
          ((getTrack p i).currentOffset + 2)).1 := by rw [hT]
      rw [hp3]
      unfold metaTempo
      rw [if_pos (show (3 : Nat) = 3 from rfl), hB]
      dsimp only
      rw [if_pos (show ([b0 % 256, b1 % 256, b2 % 256] : List Nat).length = 3 by simp)]
      split
      · dsimp only
        rw [setOffset_setOffset, getTrack_setOffset_self p i hi]
        simp
      · dsimp only
        rw [getTrack_usPerQN, setOffset_setOffset, getTrack_setOffset_self p i hi]
        simp
    rw [if_neg hsk]
  rw [hmeta]
  unfold metaTempo
  rw [if_pos (show (3 : Nat) = 3 from rfl), hB]
  dsimp only
  rw [if_pos (show ([b0 % 256, b1 % 256, b2 % 256] : List Nat).length = 3 by simp)]
  constructor
  · intro hz
    rw [if_pos (by simpa using hz)]
    exact ⟨by simp, rfl⟩
  · intro hz
    rw [if_neg (by simpa using hz)]
    exact ⟨by simp, by simp⟩

/-- Witness for C8 on `exC8` (payload 500000) and `exC8z` (payload 0). -/
theorem claim_C8_witness :
    ((handleMetaEvent exC8 0).1.usPerQN = 500000 ∧
      (handleMetaEvent exC8 0).2 = [MidiOut.tempoChange 500000]) ∧
    ((handleMetaEvent exC8z 0).1.usPerQN = exC8z.usPerQN ∧ (handleMetaEvent exC8z 0).2 = []) :=
  ⟨(claim_C8 exC8 0 7 161 32 rfl (by decide) (by decide) (by decide) (by decide)
      (by decide) (by decide)).2 (by decide),
   (claim_C8 exC8z 0 0 0 0 rfl (by decide) (by decide) (by decide) (by decide)
      (by decide) (by decide)).1 (by decide)⟩

/-- C6: the running-status memory update of `_processNextEvent` for a fresh
status byte `s` read from the selected track: a channel-voice status
(0x80-0xEF) sets the track's `lastStatusByte` to `s`, a system status in
0xF0-0xF7 clears it to 0, and a meta-event status 0xFF leaves it unchanged. -/
theorem claim_C6 (p : Player) (i s : Nat)
    (hf : findTrackWithNextEvent p.tracks = some i) (hopen : p.fileOpen = true)
    (hi : i < p.tracks.length)
    (hb : p.fileBytes[(getTrack p i).currentOffset]? = some s) (hs : s < 256)
    (hne : (processNextEvent p).1.tracks ≠ []) :
    (128 ≤ s ∧ s ≤ 239 →
      (getTrack (processNextEvent p).1 i).lastStatusByte = s) ∧
    (240 ≤ s ∧ s ≤ 247 →
      (getTrack (processNextEvent p).1 i).lastStatusByte = 0) ∧
    (s = 255 →
      (getTrack (processNextEvent p).1 i).lastStatusByte =
        (getTrack p i).lastStatusByte) := by
  have h1 : readU8 p i = (s, setOffset p i ((getTrack p i).currentOffset + 1)) := by
    rw [readU8_success p i s hopen hb, Nat.mod_eq_of_lt hs]
  refine ⟨?_, ?_, ?_⟩
  · rintro ⟨hA1, hA2⟩
    by_cases hx :
        (getTrack (setOffset p i ((getTrack p i).currentOffset + 1)) i).lastStatusByte ≠ s
    · have hmain : (processNextEvent p).1 =
          (dispatchEvent (setTrack (setOffset p i ((getTrack p i).currentOffset + 1)) i
              { getTrack (setOffset p i ((getTrack p i).currentOffset + 1)) i with
                  lastStatusByte := s }) i s false 0 (getTrack p i).nextEventTick).1 := by
        unfold processNextEvent
        rw [hf]
        simp only [h1]
        rw [if_neg (by simp [hopen]), if_neg (show ¬ s < 128 by omega),
            if_pos (show 128 ≤ s ∧ s ≤ 239 from ⟨hA1, hA2⟩), if_pos hx]
      rw [hmain, dispatchEvent_fst_midi _ _ _ _ _ _ hA1 hA2] at hne ⊢
      rw [lsKeep_ls (lsKeep_trans (lsKeep_handleMidiEvent _ i s false 0)
        (lsKeep_scheduleNextDelta _ i _)) hne]
      rw [getTrack_setTrack_self _ i (by simpa using hi)]
    · have hmain : (processNextEvent p).1 =
          (dispatchEvent (setOffset p i ((getTrack p i).currentOffset + 1)) i s false 0
            (getTrack p i).nextEventTick).1 := by
        unfold processNextEvent
        rw [hf]
        simp only [h1]
        rw [if_neg (by simp [hopen]), if_neg (show ¬ s < 128 by omega),
            if_pos (show 128 ≤ s ∧ s ≤ 239 from ⟨hA1, hA2⟩), if_neg hx]
      rw [hmain, dispatchEvent_fst_midi _ _ _ _ _ _ hA1 hA2] at hne ⊢
      rw [lsKeep_ls (lsKeep_trans (lsKeep_handleMidiEvent _ i s false 0)
        (lsKeep_scheduleNextDelta _ i _)) hne]
      exact not_not.mp hx
  · rintro ⟨hB1, hB2⟩
    set q := setTrack (setOffset p i ((getTrack p i).currentOffset + 1)) i
        { getTrack (setOffset p i ((getTrack p i).currentOffset + 1)) i with
            lastStatusByte := 0 } with hqd
    have hmain : (processNextEvent p).1 =
        (dispatchEvent q i s false 0 (getTrack p i).nextEventTick).1 := by
      rw [hqd]
      unfold processNextEvent
      rw [hf]
      simp only [h1]
      rw [if_neg (by simp [hopen]), if_neg (show ¬ s < 128 by omega),
          if_neg (show ¬ (128 ≤ s ∧ s ≤ 239) by omega),
          if_pos (show 240 ≤ s ∧ s ≤ 247 from ⟨hB1, hB2⟩)]
    have hq1 : q.fileOpen = true := by
      rw [hqd]
      simp [hopen]
    have hq2 : i < q.tracks.length := by
      rw [hqd]
      simpa using hi
    by_cases hsx : s = 240 ∨ s = 247
    · rw [hmain, dispatchEvent_fst_sysex q i s false 0 _ hsx] at hne ⊢
      rcases handleSysexEvent_ls q i hq1 hq2 with hnil | hls0
      · exact absurd (scheduleNextDelta_nil i _ hnil) hne
      · rw [lsKeep_ls (lsKeep_scheduleNextDelta _ i _) hne]
        exact hls0
    · push_neg at hsx
      rw [hmain, dispatchEvent_fst_sys q i s false 0 _ (by omega) (by omega) hsx.2] at hne ⊢
      rw [lsKeep_ls (lsKeep_scheduleNextDelta _ i _) hne]
      rw [getTrack_setTrack_self q i hq2]
  · intro hC
    subst hC
    have hmain : (processNextEvent p).1 =
        (dispatchEvent (setOffset p i ((getTrack p i).currentOffset + 1)) i 255 false 0
          (getTrack p i).nextEventTick).1 := by
      unfold processNextEvent
      rw [hf]
      simp only [h1]
      rw [if_neg (by simp [hopen]), if_neg (show ¬ (255 : Nat) < 128 by omega),
          if_neg (show ¬ (128 ≤ (255 : Nat) ∧ (255 : Nat) ≤ 239) by omega),
          if_neg (show ¬ (240 ≤ (255 : Nat) ∧ (255 : Nat) ≤ 247) by omega)]
    rw [hmain, dispatchEvent_fst_meta _ i false 0 _] at hne ⊢
    rw [lsKeep_ls (lsKeep_trans (lsKeep_handleMetaEvent _ i)
      (lsKeep_scheduleNextDelta _ i _)) hne]
    rw [getTrack_setOffset_self p i hi]

/-- Witness for C6: a fresh Note-On (0x90) sets the running status to 0x90, a
system-common byte (0xF6) clears it, and a meta event (0xFF) leaves it as it
was. -/
theorem claim_C6_witness :
    (getTrack (processNextEvent exC6a).1 0).lastStatusByte = 144 ∧
    (getTrack (processNextEvent exC6b).1 0).lastStatusByte = 0 ∧
    (getTrack (processNextEvent exC6c).1 0).lastStatusByte =
      (getTrack exC6c 0).lastStatusByte :=
  ⟨(claim_C6 exC6a 0 144 (by decide) rfl (by decide) (by decide) (by decide)
      (by decide)).1 (by decide),
   (claim_C6 exC6b 0 246 (by decide) rfl (by decide) (by decide) (by decide)
      (by decide)).2.1 (by decide),
   (claim_C6 exC6c 0 255 (by decide) rfl (by decide) (by decide) (by decide)
      (by decide)).2.2 rfl⟩

/-- C9: resuming from PAUSED after a pause of duration D = tr - tp shifts both
the playback-start and the last-sync time reference forward by exactly D,
returns the state machine to PLAYING with the current tick and all per-track
parse state unchanged, and the next clock advance at time t yields the same
tick as the unpaused advance at time t - D (with the last-sync reference still
shifted by D) — absent 64-bit wrap of the `micros()` arithmetic. -/
theorem claim_C9 (p : Player) (tp tr t : Nat)
    (hst : p.state = PlaybackState.PLAYING) (hopen : p.fileOpen = true)
    (h1 : tp ≤ tr) (h2 : tr < U64M)
    (h3 : p.playbackStartMicros + (tr - tp) < U64M)
    (h4 : p.lastEventMicros + (tr - tp) < U64M)
    (h5 : p.lastEventMicros + (tr - tp) ≤ t) (h6 : t < U64M) :
    (play (pause p tp) tr).playbackStartMicros = p.playbackStartMicros + (tr - tp) ∧
    (play (pause p tp) tr).lastEventMicros = p.lastEventMicros + (tr - tp) ∧
    (play (pause p tp) tr).state = PlaybackState.PLAYING ∧
    (play (pause p tp) tr).currentTick = p.currentTick ∧
    (play (pause p tp) tr).tracks = p.tracks ∧
    (advanceTickTime (play (pause p tp) tr) t).currentTick =
      (advanceTickTime p (t - (tr - tp))).currentTick ∧
    (advanceTickTime (play (pause p tp) tr) t).lastEventMicros =
      (advanceTickTime p (t - (tr - tp))).lastEventMicros + (tr - tp) := by
  have hq := pause_play_shift p tp tr hst hopen h1 h2 h3 h4
  have hadv := advanceTickTime_shift p
      { p with playbackStartMicros := p.playbackStartMicros + (tr - tp),
               lastEventMicros := p.lastEventMicros + (tr - tp),
               state := PlaybackState.PLAYING,
               pauseStartMicros := tp } (tr - tp) t rfl rfl rfl rfl h5 h6
  rw [hq]
  exact ⟨rfl, rfl, rfl, rfl, rfl, hadv.1, hadv.2⟩

/-- Witness for C9 on `exC9`: pausing at 3000 and resuming at 4000 shifts both
time references by 1000 and makes the next clock advance at 1003000 agree with
the unpaused advance at 1002000. -/
theorem claim_C9_witness :
    (play (pause exC9 3000) 4000).playbackStartMicros = 2000 ∧
    (play (pause exC9 3000) 4000).lastEventMicros = 3000 ∧
    (play (pause exC9 3000) 4000).state = PlaybackState.PLAYING ∧
    (advanceTickTime (play (pause exC9 3000) 4000) 1003000).currentTick =
      (advanceTickTime exC9 (1003000 - (4000 - 3000))).currentTick := by
  have h := claim_C9 exC9 3000 4000 1003000 rfl rfl (by norm_num) (by decide)
    (by decide) (by decide) (by decide) (by decide)
  exact ⟨by rw [h.1]; decide, by rw [h.2.1]; decide, h.2.2.1, h.2.2.2.2.2.1⟩

end MidiPlayer
